import Mathlib

/-!
# `nn::Matrix<T>` (src/matrix.h): reference-counted matrix handles

A shallow embedding of the class template `nn::Matrix<T>`.

* The free store is a map from addresses to objects; an address is a natural
  number, and address `0` is `nullptr`.
* Every `Matrix<T>` object (a *handle*) lives in a table of objects, indexed
  by a name; the member functions take the name of `this`.
* A member function either returns, or leaves by a C++ exception, or runs
  into undefined behaviour (a null or dangling dereference, an access outside
  an array, a signed overflow, a `delete` of the wrong form).
* `new` may fail: an oracle in the state decides each request.
-/

namespace nn

/-- Largest value of a 64-bit `long`. -/
def LONG_MAX : Int := 9223372036854775807

/-- Smallest value of a 64-bit `long`. -/
def LONG_MIN : Int := -9223372036854775808

/-- Objects of the free store: a `long` (the reference count, the width, the
height), a `T*` (the object `_elems` points at), a `T[n]` (the buffer), or a
scalar that `new` has allocated and nothing has written yet. -/
inductive Obj (T : Type) where
  | uninit : Obj T
  | long (v : Int) : Obj T
  | slot (p : Nat) : Obj T
  | arr (xs : List T) : Obj T
deriving DecidableEq, Repr

/-- The four data members of `Matrix<T>` (lines 16-19). -/
structure Matrix where
  _elems : Nat
  _refct : Nat
  _width : Nat
  _height : Nat
deriving DecidableEq, Repr

/-- Program state: the free store, the highest address handed out so far, the
table of live `Matrix<T>` objects, the allocation oracle (`oracle k` tells
whether the `k`-th request to `new` is served) and the number of requests
made so far. -/
structure State (T : Type) where
  heap : Nat → Option (Obj T)
  brk : Nat
  objs : Nat → Option Matrix
  oracle : Nat → Bool
  asked : Nat

/-- C++ exceptions that leave a member function. -/
inductive Exn where
  | out_of_range
  | bad_alloc
  | bad_array_new_length
deriving DecidableEq, Repr

/-- Undefined behaviour. -/
inductive UB where
  | null_deref
  | bad_deref (p : Nat)
  | bad_delete (p : Nat)
  | mismatched_delete (p : Nat)
  | out_of_bounds (off : Int) (len : Nat)
  | overflow
  | no_object (name : Nat)
deriving DecidableEq, Repr

/-- How a member function ends: a normal return with a value, an exception
(the state is the one at the throw), or undefined behaviour. -/
inductive Outcome (T : Type) (α : Type) where
  | ok (a : α) (s : State T) : Outcome T α
  | threw (e : Exn) (s : State T) : Outcome T α
  | ub (u : UB) : Outcome T α

/-- State-passing computations. -/
def M (T : Type) (α : Type) : Type := State T → Outcome T α

def M.pure {T α : Type} (a : α) : M T α := fun s => Outcome.ok a s

def M.bind {T α β : Type} (m : M T α) (f : α → M T β) : M T β := fun s =>
  match m s with
  | Outcome.ok a s' => f a s'
  | Outcome.threw e s' => Outcome.threw e s'
  | Outcome.ub u => Outcome.ub u

instance instMonadM (T : Type) : Monad (M T) where
  pure := M.pure
  bind := M.bind

def throwExn {T α : Type} (e : Exn) : M T α := fun s => Outcome.threw e s

def undefined {T α : Type} (u : UB) : M T α := fun _ => Outcome.ub u

/-- The state with no object and nothing allocated, in which the requests to
`new` are served as `oracle` says. -/
def State.start (T : Type) (oracle : Nat → Bool) : State T :=
  { heap := fun _ => none, brk := 0, objs := fun _ => none, oracle := oracle, asked := 0 }

/-- The state with no object and nothing allocated, in which `new` never fails. -/
def State.init (T : Type) : State T := State.start T (fun _ => true)

section primitives

variable {T : Type}

/-- Read the members of the object named `this`. -/
def getObj (this : Nat) : M T Matrix := fun s =>
  match s.objs this with
  | some h => Outcome.ok h s
  | none => Outcome.ub (UB.no_object this)

/-- Overwrite the members of the object named `this`. -/
def setObj (this : Nat) (h : Matrix) : M T Unit := fun s =>
  Outcome.ok () { s with objs := Function.update s.objs this (some h) }

/-- End of the lifetime of the object named `this`. -/
def dropObj (this : Nat) : M T Unit := fun s =>
  Outcome.ok () { s with objs := Function.update s.objs this none }

/-- Assignment to the member `_elems` of `this`. -/
def set_elems (this : Nat) (p : Nat) : M T Unit := fun s =>
  match s.objs this with
  | some h => Outcome.ok () { s with objs := Function.update s.objs this (some { h with _elems := p }) }
  | none => Outcome.ub (UB.no_object this)

/-- Assignment to the member `_refct` of `this`. -/
def set_refct (this : Nat) (p : Nat) : M T Unit := fun s =>
  match s.objs this with
  | some h => Outcome.ok () { s with objs := Function.update s.objs this (some { h with _refct := p }) }
  | none => Outcome.ub (UB.no_object this)

/-- Assignment to the member `_width` of `this`. -/
def set_width (this : Nat) (p : Nat) : M T Unit := fun s =>
  match s.objs this with
  | some h => Outcome.ok () { s with objs := Function.update s.objs this (some { h with _width := p }) }
  | none => Outcome.ub (UB.no_object this)

/-- Assignment to the member `_height` of `this`. -/
def set_height (this : Nat) (p : Nat) : M T Unit := fun s =>
  match s.objs this with
  | some h => Outcome.ok () { s with objs := Function.update s.objs this (some { h with _height := p }) }
  | none => Outcome.ub (UB.no_object this)

/-- A value computed in `long`: signed overflow is undefined. -/
def toLong (v : Int) : M T Int :=
  if LONG_MIN ≤ v ∧ v ≤ LONG_MAX then pure v else undefined UB.overflow

/-- Evaluate `*p` for `p : long*`. -/
def readLong (p : Nat) : M T Int := fun s =>
  if p = 0 then Outcome.ub UB.null_deref else
  match s.heap p with
  | some (Obj.long v) => Outcome.ok v s
  | _ => Outcome.ub (UB.bad_deref p)

/-- Execute `*p = v` for `p : long*`. -/
def writeLong (p : Nat) (v : Int) : M T Unit := fun s =>
  if p = 0 then Outcome.ub UB.null_deref else
  match s.heap p with
  | some (Obj.long _) | some Obj.uninit =>
      Outcome.ok () { s with heap := Function.update s.heap p (some (Obj.long v)) }
  | _ => Outcome.ub (UB.bad_deref p)

/-- Evaluate `*p` for `p : T**`. -/
def readSlot (p : Nat) : M T Nat := fun s =>
  if p = 0 then Outcome.ub UB.null_deref else
  match s.heap p with
  | some (Obj.slot q) => Outcome.ok q s
  | _ => Outcome.ub (UB.bad_deref p)

/-- Execute `*p = q` for `p : T**`. -/
def writeSlot (p : Nat) (q : Nat) : M T Unit := fun s =>
  if p = 0 then Outcome.ub UB.null_deref else
  match s.heap p with
  | some (Obj.slot _) | some Obj.uninit =>
      Outcome.ok () { s with heap := Function.update s.heap p (some (Obj.slot q)) }
  | _ => Outcome.ub (UB.bad_deref p)

/-- Ask the oracle whether the next allocation succeeds. -/
def grant : M T Bool := fun s =>
  Outcome.ok (s.oracle s.asked) { s with asked := s.asked + 1 }

/-- Place a new object at a fresh address. -/
def place (o : Obj T) : M T Nat := fun s =>
  Outcome.ok (s.brk + 1)
    { s with heap := Function.update s.heap (s.brk + 1) (some o), brk := s.brk + 1 }

/-- Evaluate `new (std::nothrow) X` for a scalar `X` (`long` or `T*`): the
address of an object without a value, or `nullptr`. -/
def newScalar : M T Nat := do
  let okay ← grant
  if okay then place Obj.uninit else pure 0

/-- Evaluate `new T[n]` (throwing form) for `n` of type `long`: an exception
for a negative `n` and for a request that is not served. The elements are
default-initialised, which `default` stands for. -/
def newArray [Inhabited T] (n : Int) : M T Nat :=
  if n < 0 then throwExn Exn.bad_array_new_length else do
    let okay ← grant
    if okay then place (Obj.arr (List.replicate n.toNat default))
    else throwExn Exn.bad_alloc

/-- Evaluate `new (std::nothrow) T[n]` for `n` of type `long`: `nullptr` for a
request that is not served. For a negative `n` no request is made and the
expression throws `bad_array_new_length`, as the throwing form does. The
elements are default-initialised. -/
def newArrayNothrow [Inhabited T] (n : Int) : M T Nat :=
  if n < 0 then throwExn Exn.bad_array_new_length else do
    let okay ← grant
    if okay then place (Obj.arr (List.replicate n.toNat default)) else pure 0

/-- Execute `delete p`, the form for a single object: nothing for `nullptr`,
the release of an object that `new X` has made, and undefined behaviour for
an array that `new T[n]` has made and for an address that holds no object. -/
def delete (p : Nat) : M T Unit := fun s =>
  if p = 0 then Outcome.ok () s else
  match s.heap p with
  | some (Obj.arr _) => Outcome.ub (UB.mismatched_delete p)
  | some _ => Outcome.ok () { s with heap := Function.update s.heap p none }
  | none => Outcome.ub (UB.bad_delete p)

/-- Execute `delete[] p`, the form for an array: nothing for `nullptr`, the
release of an array that `new T[n]` has made, and undefined behaviour for a
single object and for an address that holds no object. -/
def delete_array (p : Nat) : M T Unit := fun s =>
  if p = 0 then Outcome.ok () s else
  match s.heap p with
  | some (Obj.arr _) => Outcome.ok () { s with heap := Function.update s.heap p none }
  | some _ => Outcome.ub (UB.mismatched_delete p)
  | none => Outcome.ub (UB.bad_delete p)

end primitives

section members

variable {T : Type}

/-- The function `Matrix<T>::construct` (lines 27-33): all four members become
`nullptr`. It also runs first in every constructor, where it brings the
object `this` to life. -/
def construct (this : Nat) : M T Unit :=
  setObj this { _elems := 0, _refct := 0, _width := 0, _height := 0 }

/-- The function `Matrix<T>::gc` (lines 41-59). In `*_refct-- <= 0` the postfix
decrement binds to the pointer: the member `_refct` is moved back by one
`long`, and the count at the old address is read and compared, not changed. -/
def gc (this : Nat) : M T Bool := do
  let h ← getObj this
  if h._refct = 0 then pure false else do
    set_refct this (h._refct - 1)
    let c ← readLong h._refct
    if c ≤ 0 then do
      if h._elems ≠ 0 then do
        let p ← readSlot h._elems
        if p ≠ 0 then delete_array p
        delete h._elems
      delete h._width
      delete h._height
    pure true

/-- The function `Matrix<T>::create_local` (lines 69-103). The operand
`decltype(*_refct)` of `new` is read as the pointee type. `deleteif(x)` is
`if(!x) delete x`: it only ever deletes a null pointer. The last branch
follows the source although the throwing `new T[n]` never yields `nullptr`. -/
def create_local [Inhabited T] (this : Nat) (width height : Int) : M T Bool := do
  let _ ← gc this
  let r ← newScalar
  set_refct this r
  let w ← newScalar
  set_width this w
  let ht ← newScalar
  set_height this ht
  let e ← newScalar
  set_elems this e
  let h ← getObj this
  if h._refct = 0 ∨ h._width = 0 ∨ h._height = 0 ∨ h._elems = 0 then do
    if h._refct = 0 then delete h._refct
    if h._width = 0 then delete h._width
    if h._height = 0 then delete h._height
    if h._elems = 0 then delete h._elems
    pure false
  else do
    writeLong h._refct 1
    writeLong h._width width
    writeLong h._height height
    let wv ← readLong h._width
    let hv ← readLong h._height
    let n ← toLong (wv * hv)
    let buf ← newArray n
    writeSlot h._elems buf
    let b ← readSlot h._elems
    if b = 0 then do
      delete h._elems
      delete h._width
      delete h._height
      delete h._refct
      pure false
    else pure true

/-- The function `Matrix<T>::create_global` (lines 112-129). The old buffer,
which `new T[n]` has made, is released by `delete *_elems`, the form for a
single object, where `gc` uses `delete[]`. -/
def create_global [Inhabited T] (this : Nat) (width height : Int) : M T Bool := do
  let h ← getObj this
  if h._refct = 0 then create_local this width height
  else do
    let n ← toLong (width * height)
    let arr ← newArrayNothrow n
    if arr = 0 then pure false else do
      let old ← readSlot h._elems
      delete old
      writeSlot h._elems arr
      writeLong h._width width
      writeLong h._height height
      pure true

/-- What a `T&` into a buffer denotes: the buffer and the offset of the element. -/
structure Ref where
  buf : Nat
  off : Nat
deriving DecidableEq, Repr

/-- Evaluate `p[off]` to a reference: the element has to exist. -/
def index (p : Nat) (off : Int) : M T Ref := fun s =>
  if p = 0 then Outcome.ub UB.null_deref else
  match s.heap p with
  | some (Obj.arr xs) =>
      if 0 ≤ off ∧ off < xs.length then Outcome.ok { buf := p, off := off.toNat } s
      else Outcome.ub (UB.out_of_bounds off xs.length)
  | _ => Outcome.ub (UB.bad_deref p)

/-- The function `Matrix<T>::get` (lines 138-143); the disjuncts of the
condition are evaluated left to right. -/
def get (this : Nat) (x y : Int) : M T Ref := do
  let h ← getObj this
  if h._elems = 0 then throwExn Exn.out_of_range else do
  let p ← readSlot h._elems
  if p = 0 then throwExn Exn.out_of_range else do
  let w ← readLong h._width
  if x ≥ w then throwExn Exn.out_of_range else do
  let ht ← readLong h._height
  if y ≥ ht then throwExn Exn.out_of_range else do
  if x < 0 then throwExn Exn.out_of_range else do
  if y < 0 then throwExn Exn.out_of_range else do
  let p ← readSlot h._elems
  let w ← readLong h._width
  let wx ← toLong (w * x)
  let off ← toLong (wx + y)
  index p off

/-- The function `Matrix<T>::get_unchecked` (lines 152-155). -/
def get_unchecked (this : Nat) (x y : Int) : M T Ref := do
  let h ← getObj this
  let p ← readSlot h._elems
  let w ← readLong h._width
  let wx ← toLong (w * x)
  let off ← toLong (wx + y)
  index p off

/-- Read through a reference. -/
def load (r : Ref) : M T T := fun s =>
  match s.heap r.buf with
  | some (Obj.arr xs) =>
      match xs.get? r.off with
      | some v => Outcome.ok v s
      | none => Outcome.ub (UB.out_of_bounds r.off xs.length)
  | _ => Outcome.ub (UB.bad_deref r.buf)

/-- Assign through a reference. -/
def store (r : Ref) (v : T) : M T Unit := fun s =>
  match s.heap r.buf with
  | some (Obj.arr xs) =>
      if r.off < xs.length then
        Outcome.ok () { s with heap := Function.update s.heap r.buf (some (Obj.arr (xs.set r.off v))) }
      else Outcome.ub (UB.out_of_bounds r.off xs.length)
  | _ => Outcome.ub (UB.bad_deref r.buf)

/-- The constructor `Matrix<T>::Matrix()` (lines 176-179). -/
def Matrix_default (this : Nat) : M T Unit :=
  construct this

/-- The constructor `Matrix<T>::Matrix(long, long)` (lines 188-192); the
result of `create_global` is dropped. When the body throws, the object never
comes to life. -/
def Matrix_dims [Inhabited T] (this : Nat) (width height : Int) : M T Unit := fun s =>
  match (do construct this; let _ ← create_global this width height; pure ()
          : M T Unit) s with
  | Outcome.threw e s' => Outcome.threw e { s' with objs := Function.update s'.objs this none }
  | r => r

/-- Evaluate `(*p)++` for `p : long*`. -/
def increment (p : Nat) : M T Unit := do
  let c ← readLong p
  let c1 ← toLong (c + 1)
  writeLong p c1

/-- The copy constructor `Matrix<T>::Matrix(const Matrix<T>&)` (lines
200-209). -/
def Matrix_copy (this mat : Nat) : M T Unit := do
  construct this
  let m ← getObj mat
  set_elems this m._elems
  let m ← getObj mat
  set_width this m._width
  let m ← getObj mat
  set_height this m._height
  let m ← getObj mat
  set_refct this m._refct
  let h ← getObj this
  increment h._refct

/-- The operator `Matrix<T>::operator=` (lines 217-228). The members of `m`
are read after `gc()` and `construct()` have run on `this`, and `m` may be
`this`. -/
def assign (this m : Nat) : M T Unit := do
  let _ ← gc this
  construct this
  let src ← getObj m
  set_elems this src._elems
  let src ← getObj m
  set_width this src._width
  let src ← getObj m
  set_height this src._height
  let src ← getObj m
  set_refct this src._refct
  let h ← getObj this
  increment h._refct

/-- The destructor `Matrix<T>::~Matrix` (lines 236-239), and the end of the
lifetime of the object. -/
def destroy (this : Nat) : M T Unit := do
  let _ ← gc this
  dropObj this

/-- The call `memcpy(dst, src, n * sizeof(T))` for `n` of type `long`: `n`
elements are copied, and both buffers have to hold that many; a negative `n`
converts to a size beyond every buffer. -/
def memcpy (dst src : Nat) (n : Int) : M T Unit := fun s =>
  if dst = 0 ∨ src = 0 then Outcome.ub UB.null_deref else
  match s.heap dst, s.heap src with
  | some (Obj.arr d), some (Obj.arr xs) =>
      if n < 0 then Outcome.ub (UB.out_of_bounds n xs.length)
      else if xs.length < n.toNat then Outcome.ub (UB.out_of_bounds n xs.length)
      else if d.length < n.toNat then Outcome.ub (UB.out_of_bounds n d.length)
      else
        let copied := xs.take n.toNat ++ d.drop n.toNat
        Outcome.ok () { s with heap := Function.update s.heap dst (some (Obj.arr copied)) }
  | some (Obj.arr _), _ => Outcome.ub (UB.bad_deref src)
  | _, _ => Outcome.ub (UB.bad_deref dst)

/-- The function `Matrix<T>::clone` (lines 163-168). The local `mat` is built
in place as the returned object `res`. The constructor is handed the members
`_width` and `_height`, which are pointers, where it takes `long`: the call is
ill-formed, and where a compiler lets the conversion pass the addresses
themselves become the dimensions of `mat`. The addresses of this model are
small numbers; with the addresses of a 64-bit machine their product is not a
`long` and the call does not return. -/
def clone [Inhabited T] (this res : Nat) : M T Unit := do
  let h ← getObj this
  Matrix_dims res (h._width : Int) (h._height : Int)
  let mat ← getObj res
  let dst ← readSlot mat._elems
  let src ← readSlot h._elems
  let w ← readLong h._width
  let ht ← readLong h._height
  let n ← toLong (w * ht)
  memcpy dst src n

end members

/-! ## Observations -/

section observations

variable {T : Type}

/-- An outcome without its state. -/
inductive Verdict (α : Type) where
  | ok (a : α) : Verdict α
  | threw (e : Exn) : Verdict α
  | ub (u : UB) : Verdict α
deriving DecidableEq, Repr

def Outcome.verdict {α : Type} : Outcome T α → Verdict α
  | Outcome.ok a _ => Verdict.ok a
  | Outcome.threw e _ => Verdict.threw e
  | Outcome.ub u => Verdict.ub u

/-- The state a computation leaves behind: the state at the return or at the
throw, and the initial state when the computation is undefined. -/
def after {α : Type} (m : M T α) (s : State T) : State T :=
  match m s with
  | Outcome.ok _ s' => s'
  | Outcome.threw _ s' => s'
  | Outcome.ub _ => s

/-- What is seen at an address of the free store: nothing (never allocated,
or released), a scalar without a value, a `long`, a `T*`, or a buffer of so
many elements. -/
inductive Seen where
  | nothing
  | uninit
  | long (v : Int)
  | slot (p : Nat)
  | arr (len : Nat)
deriving DecidableEq, Repr

def see : Option (Obj T) → Seen
  | none => Seen.nothing
  | some Obj.uninit => Seen.uninit
  | some (Obj.long v) => Seen.long v
  | some (Obj.slot p) => Seen.slot p
  | some (Obj.arr xs) => Seen.arr xs.length

/-- Look at the free store at address `p`. -/
def peek (p : Nat) : M T Seen := fun s => Outcome.ok (see (s.heap p)) s

/-- Look at the members of the object named `name`, if it is alive. -/
def members (name : Nat) : M T (Option Matrix) := fun s => Outcome.ok (s.objs name) s

/-- The handle `h` refers to a cell of state `s`: its four members point at
live objects of the right kinds, the count is `c ≥ 1`, the width is `w`, the
height is `ht`, and the buffer is the array `xs` at address `buf`. -/
structure Attached (s : State T) (h : Matrix) (c w ht : Int) (buf : Nat) (xs : List T) : Prop where
  refct : s.heap h._refct = some (Obj.long c)
  width : s.heap h._width = some (Obj.long w)
  height : s.heap h._height = some (Obj.long ht)
  elems : s.heap h._elems = some (Obj.slot buf)
  buffer : s.heap buf = some (Obj.arr xs)
  nonnull : h._refct ≠ 0 ∧ h._width ≠ 0 ∧ h._height ≠ 0 ∧ h._elems ≠ 0 ∧ buf ≠ 0
  apart : h._refct ≠ h._width ∧ h._refct ≠ h._height ∧ h._width ≠ h._height
  counted : 1 ≤ c
  below : h._refct ≤ s.brk ∧ h._width ≤ s.brk ∧ h._height ≤ s.brk ∧ h._elems ≤ s.brk ∧ buf ≤ s.brk

/-- A handle whose release leaves the free store alone: it is empty, or the
count it points at is at least one. -/
def Releasable (s : State T) (h : Matrix) : Prop :=
  h._refct = 0 ∨ ∃ c, s.heap h._refct = some (Obj.long c) ∧ 1 ≤ c

/-- No live handle points above the highest address handed out. -/
def Settled (s : State T) : Prop :=
  ∀ i m, s.objs i = some m →
    m._refct ≤ s.brk ∧ m._width ≤ s.brk ∧ m._height ≤ s.brk ∧ m._elems ≤ s.brk

end observations

/-! ## Client code and the states it reaches -/

section reachable

variable {T : Type}

/-- The members of an empty handle. -/
def Matrix.null : Matrix := { _elems := 0, _refct := 0, _width := 0, _height := 0 }

/-- The statement `this.get(x, y) = v;`. -/
def put (this : Nat) (x y : Int) (v : T) : M T Unit := do
  let r ← get this x y
  store r v

/-- The statements of client code: the constructors, the destructor and the
public member functions, on named objects. -/
inductive Op (T : Type) where
  | construct (name : Nat) : Op T
  | construct_dims (name : Nat) (width height : Int) : Op T
  | construct_copy (name mat : Nat) : Op T
  | assign (this m : Nat) : Op T
  | create_local (this : Nat) (width height : Int) : Op T
  | create_global (this : Nat) (width height : Int) : Op T
  | put (this : Nat) (x y : Int) (v : T) : Op T
  | clone (this res : Nat) : Op T
  | destroy (this : Nat) : Op T

/-- Execute one statement. -/
def Op.perform [Inhabited T] : Op T → M T Unit
  | Op.construct name => Matrix_default name
  | Op.construct_dims name width height => Matrix_dims name width height
  | Op.construct_copy name mat => Matrix_copy name mat
  | Op.assign this m => nn.assign this m
  | Op.create_local this width height => do let _ ← nn.create_local this width height; pure ()
  | Op.create_global this width height => do let _ ← nn.create_global this width height; pure ()
  | Op.put this x y v => nn.put this x y v
  | Op.clone this res => nn.clone this res
  | Op.destroy this => nn.destroy this

/-- Execute statements one after the other. -/
def perform_all [Inhabited T] : List (Op T) → M T Unit
  | [] => pure ()
  | op :: rest => do op.perform; perform_all rest

/-- The states that client code reaches from the state with no object when
`new` never fails, every statement returning normally. -/
def Reachable [Inhabited T] (s : State T) : Prop :=
  ∃ ops : List (Op T), perform_all ops (State.init T) = Outcome.ok () s

/-- A computation that returns in the state in which it started. -/
def Reads {α : Type} (m : M T α) : Prop :=
  ∀ s a s', m s = Outcome.ok a s' → s' = s

/-- The handle is empty or refers to a cell. -/
def Known (s : State T) (m : Matrix) : Prop :=
  m = Matrix.null ∨ ∃ c w ht buf xs, Attached s m c w ht buf xs

/-- Two handles on different cells: no `long` of one cell is a `long` of the
other, and the two `T*` objects are different objects that hold different
buffers. -/
def Separate (s : State T) (m n : Matrix) : Prop :=
  m._refct ≠ n._refct ∧ m._refct ≠ n._width ∧ m._refct ≠ n._height ∧
  m._width ≠ n._refct ∧ m._width ≠ n._width ∧ m._width ≠ n._height ∧
  m._height ≠ n._refct ∧ m._height ≠ n._width ∧ m._height ≠ n._height ∧
  m._elems ≠ n._elems ∧ s.heap m._elems ≠ s.heap n._elems

/-- The invariant of client code: `new` never fails, every live handle is
empty or refers to a cell, and two live handles that are not empty have the
same members or refer to separate cells. -/
structure Inv (s : State T) : Prop where
  served : ∀ k, s.oracle k = true
  handles : ∀ i m, s.objs i = some m → Known s m
  separate : ∀ i j m n, s.objs i = some m → s.objs j = some n →
    m ≠ Matrix.null → n ≠ Matrix.null → m = n ∨ Separate s m n

/-- The statement passes no negative width and no negative height. -/
def Op.nonneg : Op T → Prop
  | Op.construct_dims _ width height => 0 ≤ width ∧ 0 ≤ height
  | Op.create_local _ width height => 0 ≤ width ∧ 0 ≤ height
  | Op.create_global _ width height => 0 ≤ width ∧ 0 ≤ height
  | _ => True

/-- The handle is empty, or refers to a cell whose buffer has `width * height`
elements and, when `strict` holds, whose width and height are not negative. -/
def Fits (strict : Prop) (s : State T) (m : Matrix) : Prop :=
  m = Matrix.null ∨
    ∃ c w ht buf xs, Attached s m c w ht buf xs ∧ (xs.length : Int) = w * ht ∧
      (strict → 0 ≤ w ∧ 0 ≤ ht)

/-- Every live handle is empty or refers to a cell whose buffer has
`width * height` elements and, when `strict` holds, whose width and height
are not negative. -/
def Sized (strict : Prop) (s : State T) : Prop :=
  ∀ i m, s.objs i = some m → Fits strict s m

end reachable

/-! ## Scenarios

Straight-line client code over `Matrix<T>` for an integer type `T`, run from
the state with no object: with `run`, in which `new` never fails, or with
`run_with`, which takes the oracle that decides the requests to `new`. The
objects `A`, `B`, `C`, `E`, `X` of the client code are named by numbers. -/

section scenarios

/-- Run client code from the empty state and keep the verdict. -/
def run {α : Type} (m : M Int α) : Verdict α :=
  (m (State.init Int)).verdict

/-- Client code `Matrix<T> A(3, 1); A.get(2, 0);` -/
def wide_get : M Int Ref := do
  Matrix_dims 0 3 1
  get 0 2 0

/-- Client code `Matrix<T> A(3, 1);` followed by a look at the width, the height and
the buffer of the cell. -/
def wide_cell : M Int (Seen × Seen × Seen) := do
  Matrix_dims 0 3 1
  let h ← getObj 0
  let b ← readSlot h._elems
  pure (← peek h._width, ← peek h._height, ← peek b)

/-- Client code `Matrix<T> A(2, 3);` and the references `A.get(0, 2)`, `A.get(1, 0)`,
`A.get_unchecked(0, 2)`, `A.get_unchecked(1, 0)`. -/
def tall_refs : M Int (Ref × Ref × Ref × Ref) := do
  Matrix_dims 0 2 3
  let a ← get 0 0 2
  let b ← get 0 1 0
  let c ← get_unchecked 0 0 2
  let d ← get_unchecked 0 1 0
  pure (a, b, c, d)

/-- Client code `{ Matrix<T> A(2, 2); }`: the only handle of a cell is destroyed. The
result is the members of `A` before the destructor runs, then the objects at
the five addresses of the cell after it has run. -/
def sole_owner_dies : M Int (Option Matrix × List Seen) := do
  Matrix_dims 0 2 2
  let m ← members 0
  destroy 0
  pure (m, [← peek 1, ← peek 2, ← peek 3, ← peek 4, ← peek 5])

/-- Client code `Matrix<T> A(2, 2); { Matrix<T> B(A); }` -/
def copy_then_destroy : M Int Unit := do
  Matrix_dims 0 2 2
  Matrix_copy 1 0
  destroy 1

/-- Client code `Matrix<T> A(3, 1); Matrix<T> B(A); B.get(2, 0);` -/
def wide_copy_get : M Int Ref := do
  Matrix_dims 0 3 1
  Matrix_copy 1 0
  get 1 2 0

/-- Client code `Matrix<T> A(3, 1); Matrix<T> B; B = A; B.get(2, 0);` -/
def wide_assign_get : M Int Ref := do
  Matrix_dims 0 3 1
  Matrix_default 1
  assign 1 0
  get 1 2 0

/-- Client code `Matrix<T> A(2, 2); Matrix<T> B(A); B.get(0, 0) = 5; A.get(0, 0)` -/
def square_alias : M Int Int := do
  Matrix_dims 0 2 2
  Matrix_copy 1 0
  let r ← get 1 0 0
  store r 5
  let r ← get 0 0 0
  load r

/-- Three handles on one `3 x 1` cell, two of them destroyed (the original
first), then `get(2, 0)` through the survivor. -/
def wide_survivor_get : M Int Ref := do
  Matrix_dims 0 3 1
  Matrix_copy 1 0
  Matrix_copy 2 1
  destroy 0
  destroy 2
  get 1 2 0

/-- Client code `Matrix<T> X(1, 1); Matrix<T> A(2, 2); Matrix<T> C = A.clone();` The
result is the members of `A`, the width and the height of `A`, the width and
the height of `C`, and what is seen at the buffer of `C`. -/
def clone_square : M Int (Matrix × Int × Int × Int × Int × Seen) := do
  Matrix_dims 0 1 1
  Matrix_dims 1 2 2
  clone 1 2
  let a ← getObj 1
  let wa ← readLong a._width
  let ha ← readLong a._height
  let c ← getObj 2
  let wc ← readLong c._width
  let hc ← readLong c._height
  let b ← readSlot c._elems
  pure (a, wa, ha, wc, hc, ← peek b)

/-- The state after `Matrix<T> A(2, 2); Matrix<T> B;`, where `A` is the
object `0` and `B` the object `1`. -/
def one_cell : State Int :=
  after (do Matrix_dims 0 2 2; Matrix_default 1 : M Int Unit) (State.init Int)

/-- The state after `Matrix<T> A(2, 2); Matrix<T> B(A);`, where `A` is
the object `0` and `B` the object `1`. -/
def shared_cell : State Int :=
  after (do Matrix_dims 0 2 2; Matrix_copy 1 0 : M Int Unit) (State.init Int)

/-- Client code `Matrix<T> A(2, 2); Matrix<T> B(A); A.create_global(3, 3);` -/
def shared_resize : M Int Bool := do
  Matrix_dims 0 2 2
  Matrix_copy 1 0
  create_global 0 3 3

/-- Client code `Matrix<T> A(3, 3); Matrix<T> C = A.clone();` -/
def clone_overrun : M Int Unit := do
  Matrix_dims 0 3 3
  clone 0 1

/-- Run client code from the state with no object in which the requests to
`new` are served as `oracle` says, and keep the verdict. -/
def run_with {α : Type} (oracle : Nat → Bool) (m : M Int α) : Verdict α :=
  (m (State.start Int oracle)).verdict

/-- Client code `Matrix<T> A; A.create_local(2, 2);` followed by a look at the
members of `A` and at the addresses 1 to 4 of the free store. -/
def create_local_probe : M Int (Bool × Option Matrix × List Seen) := do
  Matrix_default 0
  let b ← create_local 0 2 2
  pure (b, ← members 0, [← peek 1, ← peek 2, ← peek 3, ← peek 4])

/-- The state in which `Matrix<T> A; A.create_local(2, 2);` ends, by a return
or by a throw, when the request number `k` to `new` (counted from 0) is the
one that is not served. -/
def starved_local (k : Nat) : State Int :=
  after (do Matrix_default 0; let _ ← create_local 0 2 2; pure () : M Int Unit)
    (State.start Int (fun i => i != k))

/-- A state with one object, whose `_elems` points at a `T*` that holds
`nullptr` and whose other members are null: a cell without a buffer. -/
def hollow_cell : State Int :=
  { heap := Function.update (fun _ => none) 1 (some (Obj.slot 0)),
    brk := 1,
    objs := Function.update (fun _ => none) 0 (some (Matrix.mk 1 0 0 0)),
    oracle := fun _ => true,
    asked := 1 }

/-- The state after `Matrix<T> E;`, where `E` is the object `0`. -/
def empty_handle : State Int :=
  after (Matrix_default 0 : M Int Unit) (State.init Int)

/-- Client code `Matrix<T> A(2, 2); A = A;` -/
def self_assign : M Int Unit := do
  Matrix_dims 0 2 2
  assign 0 0

/-- Client code `Matrix<T> E; Matrix<T> B(E);` -/
def copy_of_empty : M Int Unit := do
  Matrix_default 0
  Matrix_copy 1 0

/-- Client code `Matrix<T> E; Matrix<T> B; B = E;` -/
def assign_of_empty : M Int Unit := do
  Matrix_default 0
  Matrix_default 1
  assign 1 0

/-- Client code `Matrix<T> E; Matrix<T> B(2, 2); B = E;` -/
def assign_empty_to_cell : M Int Unit := do
  Matrix_default 0
  Matrix_dims 1 2 2
  assign 1 0

/-- The state after `Matrix<T> A(-1, -1);`, where `A` is the object `0`. -/
def negative_cell : State Int :=
  after (Matrix_dims 0 (-1) (-1) : M Int Unit) (State.init Int)

/-- The state after `Matrix<T> A(2, 2);`, where `A` is the object `0`. -/
def square_cell : State Int :=
  after (Matrix_dims 0 2 2 : M Int Unit) (State.init Int)

end scenarios

/-! ## Running the primitives -/

section lemmas

variable {T : Type}

theorem bind_eq {α β : Type} (m : M T α) (f : α → M T β) (s : State T) :
    (m >>= f) s = match m s with
      | Outcome.ok a s' => f a s'
      | Outcome.threw e s' => Outcome.threw e s'
      | Outcome.ub u => Outcome.ub u := rfl

theorem pure_eq {α : Type} (a : α) (s : State T) : (pure a : M T α) s = Outcome.ok a s := rfl

/-- On an empty handle `gc` returns `false` and does nothing. -/
theorem gc_empty (s : State T) (this : Nat) (h : Matrix) (hobj : s.objs this = some h)
    (hr : h._refct = 0) : gc this s = Outcome.ok false s := by
  simp [gc, bind_eq, getObj, hobj, hr, pure_eq]

/-- On a handle whose count is at least one, `gc` moves the member `_refct`
and leaves the free store, the count included, as it was. -/
theorem gc_counted (s : State T) (this : Nat) (h : Matrix) (c : Int)
    (hobj : s.objs this = some h) (hr : h._refct ≠ 0)
    (hc : s.heap h._refct = some (Obj.long c)) (hpos : 1 ≤ c) :
    gc this s = Outcome.ok true
      { s with objs := Function.update s.objs this (some { h with _refct := h._refct - 1 }) } := by
  have hc' : ¬ c ≤ 0 := by omega
  simp [gc, bind_eq, getObj, hobj, hr, pure_eq, set_refct, readLong, hc, hc']

theorem gc_frame (s : State T) (this : Nat) (hd : Matrix)
    (hdst : s.objs this = some hd) (hdok : Releasable s hd) :
    ∃ b m, gc this s = Outcome.ok b
      { s with objs := Function.update s.objs this (some m) } := by
  by_cases h0 : hd._refct = 0
  · refine ⟨false, hd, ?_⟩
    rw [gc_empty s this hd hdst h0, ← hdst, Function.update_eq_self]
  · rcases hdok with h0' | ⟨c', hc', hpos⟩
    · exact absurd h0' h0
    · exact ⟨true, _, gc_counted s this hd c' hdst h0 hc' hpos⟩

/-- The destructor of a releasable handle leaves the whole free store as it was. -/
theorem destroy_keeps_heap (s : State T) (this : Nat) (hd : Matrix)
    (hdst : s.objs this = some hd) (hdok : Releasable s hd) :
    destroy this s = Outcome.ok () { s with objs := Function.update s.objs this none } := by
  obtain ⟨b, m, hm⟩ := gc_frame s this hd hdst hdok
  simp [destroy, bind_eq, hm, dropObj]

theorem increment_eq (s : State T) (p : Nat) (c : Int) (hp : p ≠ 0)
    (hc : s.heap p = some (Obj.long c)) (h1 : 1 ≤ c) (h2 : c < LONG_MAX) :
    increment p s = Outcome.ok ()
      { s with heap := Function.update s.heap p (some (Obj.long (c + 1))) } := by
  have h3 : LONG_MIN ≤ c + 1 := by unfold LONG_MIN; omega
  have h4 : c + 1 ≤ LONG_MAX := by omega
  simp [increment, bind_eq, readLong, hp, hc, toLong, h3, h4, pure_eq, writeLong]

theorem Attached.bump {s : State T} {h : Matrix} {c w ht : Int} {buf : Nat} {xs : List T}
    (cell : Attached s h c w ht buf xs) (objs : Nat → Option Matrix) :
    Attached { s with heap := Function.update s.heap h._refct (some (Obj.long (c + 1))),
                      objs := objs } h (c + 1) w ht buf xs := by
  obtain ⟨h1, h2, h3, h4, h5, h6, h7, h8, h9⟩ := cell
  have e1 : h._elems ≠ h._refct := by
    intro e; rw [e, h1] at h4; cases h4
  have e2 : buf ≠ h._refct := by
    intro e; rw [e, h1] at h5; cases h5
  refine ⟨?_, ?_, ?_, ?_, ?_, h6, h7, by omega, h9⟩
  · simp
  · simp [Function.update_apply, Ne.symm h7.1, h2]
  · simp [Function.update_apply, Ne.symm h7.2.1, h3]
  · simp [Function.update_apply, e1, h4]
  · simp [Function.update_apply, e2, h5]

theorem Matrix_copy_eq (s : State T) (this mat : Nat) (hs : Matrix)
    (c : Int) (hne : this ≠ mat) (hsrc : s.objs mat = some hs)
    (hr : hs._refct ≠ 0) (hc : s.heap hs._refct = some (Obj.long c))
    (h1 : 1 ≤ c) (hmax : c < LONG_MAX) :
    Matrix_copy this mat s = Outcome.ok ()
      { s with heap := Function.update s.heap hs._refct (some (Obj.long (c + 1))),
               objs := Function.update s.objs this (some hs) } := by
  have hne' : mat ≠ this := Ne.symm hne
  simp [Matrix_copy, bind_eq, construct, setObj, getObj, set_elems, set_width, set_height,
    set_refct, Function.update_apply, hne', hsrc]
  exact increment_eq _ _ c hr hc h1 hmax

theorem assign_eq (s : State T) (this mat : Nat) (hs hd : Matrix)
    (c : Int) (hne : this ≠ mat) (hsrc : s.objs mat = some hs)
    (hr : hs._refct ≠ 0) (hc : s.heap hs._refct = some (Obj.long c))
    (h1 : 1 ≤ c) (hmax : c < LONG_MAX)
    (hdst : s.objs this = some hd) (hdok : Releasable s hd) :
    assign this mat s = Outcome.ok ()
      { s with heap := Function.update s.heap hs._refct (some (Obj.long (c + 1))),
               objs := Function.update s.objs this (some hs) } := by
  have hne' : mat ≠ this := Ne.symm hne
  obtain ⟨b, m, hm⟩ := gc_frame s this hd hdst hdok
  simp only [assign, bind_eq, hm]
  simp [bind_eq, construct, setObj, getObj, set_elems, set_width, set_height,
    set_refct, Function.update_apply, hne', hsrc]
  exact increment_eq _ _ c hr hc h1 hmax

/-- What a call of `create_local` that returns `true` has done. -/
theorem create_local_ok [Inhabited T] (s s' : State T) (this : Nat) (hd : Matrix)
    (width height : Int)
    (hdst : s.objs this = some hd) (hdok : Releasable s hd)
    (hrun : create_local this width height s = Outcome.ok true s') :
    0 ≤ width * height ∧ width * height ≤ LONG_MAX ∧
    s'.brk = s.brk + 5 ∧
    s'.objs = Function.update s.objs this
      (some { _elems := s.brk + 4, _refct := s.brk + 1, _width := s.brk + 2, _height := s.brk + 3 }) ∧
    s'.heap (s.brk + 1) = some (Obj.long 1) ∧
    s'.heap (s.brk + 2) = some (Obj.long width) ∧
    s'.heap (s.brk + 3) = some (Obj.long height) ∧
    s'.heap (s.brk + 4) = some (Obj.slot (s.brk + 5)) ∧
    s'.heap (s.brk + 5) = some (Obj.arr (List.replicate (width * height).toNat default)) ∧
    (∀ a, a ≤ s.brk → s'.heap a = s.heap a) ∧
    s'.oracle = s.oracle := by
  obtain ⟨b, m, hm⟩ := gc_frame s this hd hdst hdok
  simp only [create_local, bind_eq, hm] at hrun
  by_cases g1 : s.oracle s.asked = true <;>
  by_cases g2 : s.oracle (s.asked + 1) = true <;>
  by_cases g3 : s.oracle (s.asked + 1 + 1) = true <;>
  by_cases g4 : s.oracle (s.asked + 1 + 1 + 1) = true <;>
  simp [bind_eq, pure_eq, getObj, setObj, set_refct, set_width, set_height, set_elems,
    newScalar, grant, place, g1, g2, g3, g4, delete] at hrun
  simp (disch := omega) [bind_eq, pure_eq, writeLong, readLong, Function.update_noteq] at hrun
  by_cases r1 : LONG_MIN ≤ width * height ∧ width * height ≤ LONG_MAX
  · by_cases r2 : width * height < 0 <;>
    by_cases g5 : s.oracle (s.asked + 1 + 1 + 1 + 1) = true <;>
    simp [toLong, r1, r2, pure_eq, undefined, newArray, throwExn, bind_eq, grant, place, g5] at hrun
    simp (disch := omega) [bind_eq, pure_eq, writeSlot, readSlot, Function.update_noteq] at hrun
    subst hrun
    simp only [Nat.add_assoc, Nat.reduceAdd]
    refine ⟨by omega, r1.2, trivial, trivial, ?_, ?_, ?_, ?_, ?_, ?_, trivial⟩
    all_goals first
      | (intro a ha; simp (disch := omega) [Function.update_noteq])
      | simp (disch := omega) [Function.update_noteq]
  · simp [toLong, r1, undefined] at hrun

/-- The function `create_local` returns `true` when its five requests to `new`
are served and `width * height` is a `long` that is not negative. -/
theorem create_local_runs [Inhabited T] (s : State T) (this : Nat) (hd : Matrix)
    (width height : Int)
    (hdst : s.objs this = some hd) (hdok : Releasable s hd)
    (hlo : 0 ≤ width * height) (hhi : width * height ≤ LONG_MAX)
    (g1 : s.oracle s.asked = true) (g2 : s.oracle (s.asked + 1) = true)
    (g3 : s.oracle (s.asked + 2) = true) (g4 : s.oracle (s.asked + 3) = true)
    (g5 : s.oracle (s.asked + 4) = true) :
    ∃ s', create_local this width height s = Outcome.ok true s' := by
  obtain ⟨b, m, hm⟩ := gc_frame s this hd hdst hdok
  have r1 : LONG_MIN ≤ width * height ∧ width * height ≤ LONG_MAX :=
    ⟨by unfold LONG_MIN; omega, hhi⟩
  have r2 : ¬ width * height < 0 := by omega
  simp only [create_local, bind_eq, hm]
  simp [bind_eq, pure_eq, getObj, setObj, set_refct, set_width, set_height, set_elems,
    newScalar, grant, place, g1, g2, g3, g4, delete, Nat.add_assoc]
  simp (disch := omega) [bind_eq, pure_eq, writeLong, readLong, Function.update_noteq]
  simp [toLong, r1, r2, pure_eq, undefined, newArray, throwExn, bind_eq, grant, place, g5,
    Nat.add_assoc]
  simp (disch := omega) [bind_eq, pure_eq, writeSlot, readSlot, Function.update_noteq]

/-- The function `create_global` on an attached handle: it overflows when
`width * height` is not a `long`, it throws when the product is negative, it
returns `false` with nothing changed when its request to `new` is not served,
and when the request is served it runs into `delete *_elems`, the form for a
single object, on the old buffer, which is an array. -/
theorem create_global_attached [Inhabited T] (s : State T) (this : Nat) (hA : Matrix)
    (c w0 h0 : Int) (buf : Nat) (xs : List T) (width height : Int)
    (hobj : s.objs this = some hA) (cell : Attached s hA c w0 h0 buf xs) :
    create_global this width height s =
      if LONG_MIN ≤ width * height ∧ width * height ≤ LONG_MAX then
        if width * height < 0 then Outcome.threw Exn.bad_array_new_length s
        else if s.oracle s.asked = true then Outcome.ub (UB.mismatched_delete buf)
        else Outcome.ok false { s with asked := s.asked + 1 }
      else Outcome.ub UB.overflow := by
  obtain ⟨h1, h2, h3, h4, h5, ⟨n1, n2, n3, n4, n5⟩, ⟨a1, a2, a3⟩, h8, ⟨b1, b2, b3, b4, b5⟩⟩ := cell
  have f4 : hA._elems ≠ s.brk + 1 := by omega
  have f5 : buf ≠ s.brk + 1 := by omega
  simp only [create_global, bind_eq, getObj, hobj]
  simp only [n1, if_false]
  by_cases r1 : LONG_MIN ≤ width * height ∧ width * height ≤ LONG_MAX
  · by_cases r2 : width * height < 0
    · simp [toLong, r1, r2, pure_eq, newArrayNothrow, throwExn, bind_eq]
    · by_cases g : s.oracle s.asked = true
      · simp [toLong, r1, r2, pure_eq, newArrayNothrow, bind_eq, grant, place, g, readSlot,
          delete, Function.update_apply, n4, n5, h4, h5, f4, f5]
      · simp [toLong, r1, r2, pure_eq, newArrayNothrow, bind_eq, grant, g]
  · simp [toLong, r1, undefined, bind_eq]

/-- When `new` never fails, `create_global` on an attached handle does not
return. -/
theorem create_global_attached_stuck [Inhabited T] (s s' : State T) (this : Nat) (hA : Matrix)
    (c w0 h0 : Int) (buf : Nat) (xs : List T) (width height : Int) (b : Bool)
    (served : ∀ k, s.oracle k = true)
    (hobj : s.objs this = some hA) (cell : Attached s hA c w0 h0 buf xs)
    (hrun : create_global this width height s = Outcome.ok b s') : False := by
  rw [create_global_attached s this hA c w0 h0 buf xs width height hobj cell] at hrun
  by_cases r1 : LONG_MIN ≤ width * height ∧ width * height ≤ LONG_MAX
  · by_cases r2 : width * height < 0
    · simp [r1, r2] at hrun
    · simp [r1, r2, served] at hrun
  · simp [r1] at hrun

/-- Two handles with the same members get the same outcome from `get`. -/
theorem get_alias (s : State T) (a b : Nat) (m : Matrix) (x y : Int)
    (ha : s.objs a = some m) (hb : s.objs b = some m) :
    get a x y s = get b x y s := by
  simp [get, bind_eq, getObj, ha, hb]

/-- A value assigned through a reference is the value read through it. -/
theorem load_store (s s' : State T) (r : Ref) (v : T)
    (h : store r v s = Outcome.ok () s') : load r s' = Outcome.ok v s' := by
  unfold store at h
  split at h
  · rename_i xs hx
    split at h
    · rename_i hlt
      simp only [Outcome.ok.injEq, true_and] at h
      subst h
      simp [load, List.getElem?_set, hlt]
    · cases h
  · cases h

/-- The function `get` on an attached handle, at coordinates inside the
rectangle whose offset `width * x + y` is a `long`: a reference to the element
at that offset when the buffer has one, and an access outside the buffer
otherwise. -/
theorem get_attached (s : State T) (this : Nat) (m : Matrix) (c w ht : Int) (buf : Nat)
    (xs : List T) (x y : Int)
    (hobj : s.objs this = some m) (cell : Attached s m c w ht buf xs)
    (hx0 : 0 ≤ x) (hx : x < w) (hy0 : 0 ≤ y) (hy : y < ht)
    (hfit : w * x + y ≤ LONG_MAX) :
    get this x y s =
      if w * x + y < xs.length then
        Outcome.ok { buf := buf, off := (w * x + y).toNat } s
      else Outcome.ub (UB.out_of_bounds (w * x + y) xs.length) := by
  obtain ⟨h1, h2, h3, h4, h5, ⟨n1, n2, n3, n4, n5⟩, _, _, _⟩ := cell
  have hwx : 0 ≤ w * x := mul_nonneg (by omega) hx0
  have r1 : LONG_MIN ≤ w * x ∧ w * x ≤ LONG_MAX := ⟨by unfold LONG_MIN; omega, by omega⟩
  have r2 : LONG_MIN ≤ w * x + y ∧ w * x + y ≤ LONG_MAX := ⟨by unfold LONG_MIN; omega, hfit⟩
  have c1 : ¬ w ≤ x := by omega
  have c2 : ¬ ht ≤ y := by omega
  have c3 : ¬ x < 0 := by omega
  have c4 : ¬ y < 0 := by omega
  have c5 : 0 ≤ w * x + y := by omega
  simp [get, bind_eq, getObj, hobj, n4, readSlot, h4, n5, readLong, n2, h2, n3, h3, c1, c2, c3,
    c4, toLong, r1, r2, pure_eq, index, h5, c5]

/-- Outside the rectangle `get` on an attached handle throws `out_of_range`. -/
theorem get_outside (s : State T) (this : Nat) (m : Matrix) (c w ht : Int) (buf : Nat)
    (xs : List T) (x y : Int)
    (hobj : s.objs this = some m) (cell : Attached s m c w ht buf xs)
    (hout : ¬ (0 ≤ x ∧ x < w ∧ 0 ≤ y ∧ y < ht)) :
    get this x y s = Outcome.threw Exn.out_of_range s := by
  obtain ⟨h1, h2, h3, h4, h5, ⟨n1, n2, n3, n4, n5⟩, _, _, _⟩ := cell
  by_cases c1 : w ≤ x
  · simp [get, bind_eq, getObj, hobj, n4, readSlot, h4, n5, readLong, n2, h2, c1, throwExn]
  · by_cases c2 : ht ≤ y
    · simp [get, bind_eq, getObj, hobj, n4, readSlot, h4, n5, readLong, n2, h2, n3, h3, c1, c2,
        throwExn]
    · by_cases c3 : x < 0
      · simp [get, bind_eq, getObj, hobj, n4, readSlot, h4, n5, readLong, n2, h2, n3, h3, c1,
          c2, c3, throwExn]
      · by_cases c4 : y < 0
        · simp [get, bind_eq, getObj, hobj, n4, readSlot, h4, n5, readLong, n2, h2, n3, h3, c1,
            c2, c3, c4, throwExn]
        · exact absurd ⟨by omega, by omega, by omega, by omega⟩ hout

/-- An assignment through a reference into the buffer of a cell changes the
contents of that buffer and nothing else of the cell. -/
theorem Attached.poke {s s' : State T} {m : Matrix} {c w ht : Int} {buf : Nat} {xs : List T}
    (cell : Attached s m c w ht buf xs) (off : Nat) (v : T)
    (hrun : store { buf := buf, off := off } v s = Outcome.ok () s') :
    Attached s' m c w ht buf (xs.set off v) := by
  obtain ⟨h1, h2, h3, h4, h5, h6, h7, h8, h9⟩ := cell
  have e1 : m._refct ≠ buf := by intro e; rw [e, h5] at h1; cases h1
  have e2 : m._width ≠ buf := by intro e; rw [e, h5] at h2; cases h2
  have e3 : m._height ≠ buf := by intro e; rw [e, h5] at h3; cases h3
  have e4 : m._elems ≠ buf := by intro e; rw [e, h5] at h4; cases h4
  simp only [store, h5] at hrun
  split at hrun
  · simp only [Outcome.ok.injEq, true_and] at hrun
    subst hrun
    exact ⟨by simp [Function.update_apply, e1, h1], by simp [Function.update_apply, e2, h2],
      by simp [Function.update_apply, e3, h3], by simp [Function.update_apply, e4, h4],
      by simp, h6, h7, h8, h9⟩
  · cases hrun

/-- Aliasing: `a` and `b` hold the same members, which refer to a cell. When
`b.get(x, y)` returns a reference and `v` is assigned through it, `a.get(x, y)`
returns the same reference and `v` is read through it. -/
theorem write_through_alias (s s1 : State T) (a b : Nat) (m : Matrix) (c w ht : Int)
    (buf : Nat) (xs : List T) (x y : Int) (r : Ref) (v : T)
    (ha : s.objs a = some m) (hb : s.objs b = some m)
    (cell : Attached s m c w ht buf xs)
    (hget : get b x y s = Outcome.ok r s)
    (hput : store r v s = Outcome.ok () s1) :
    get a x y s1 = Outcome.ok r s1 ∧ load r s1 = Outcome.ok v s1 := by
  refine ⟨?_, load_store s s1 r v hput⟩
  by_cases hin : 0 ≤ x ∧ x < w ∧ 0 ≤ y ∧ y < ht
  · obtain ⟨hx0, hx, hy0, hy⟩ := hin
    by_cases hfit : w * x + y ≤ LONG_MAX
    · rw [get_attached s b m c w ht buf xs x y hb cell hx0 hx hy0 hy hfit] at hget
      split at hget
      · rename_i hlt
        simp only [Outcome.ok.injEq, and_true] at hget
        subst hget
        have cell1 := cell.poke _ v hput
        have hobj : s1.objs a = some m := by
          simp only [store, cell.buffer] at hput
          split at hput
          · simp only [Outcome.ok.injEq, true_and] at hput
            subst hput
            exact ha
          · cases hput
        rw [get_attached s1 a m c w ht buf _ x y hobj cell1 hx0 hx hy0 hy hfit]
        simp [hlt]
      · cases hget
    · exfalso
      obtain ⟨h1, h2, h3, h4, h5, ⟨n1, n2, n3, n4, n5⟩, _, _, _⟩ := cell
      have c1 : ¬ w ≤ x := by omega
      have c2 : ¬ ht ≤ y := by omega
      have c3 : ¬ x < 0 := by omega
      have c4 : ¬ y < 0 := by omega
      by_cases r1 : LONG_MIN ≤ w * x ∧ w * x ≤ LONG_MAX
      · have r2 : ¬ (LONG_MIN ≤ w * x + y ∧ w * x + y ≤ LONG_MAX) := fun h => hfit h.2
        simp [get, bind_eq, getObj, hb, n4, readSlot, h4, n5, readLong, n2, h2, n3, h3,
          c1, c2, c3, c4, toLong, r1, r2, pure_eq, undefined] at hget
      · simp [get, bind_eq, getObj, hb, n4, readSlot, h4, n5, readLong, n2, h2, n3, h3,
          c1, c2, c3, c4, toLong, r1, pure_eq, undefined] at hget
  · rw [get_outside s b m c w ht buf xs x y hb cell hin] at hget
    cases hget

end lemmas

/-! ## The invariant of client code -/

section invariant

variable {T : Type}

theorem Attached.frame {s s' : State T} {m : Matrix} {c w ht : Int} {buf : Nat} {xs : List T}
    (cell : Attached s m c w ht buf xs)
    (h1 : s'.heap m._refct = s.heap m._refct) (h2 : s'.heap m._width = s.heap m._width)
    (h3 : s'.heap m._height = s.heap m._height) (h4 : s'.heap m._elems = s.heap m._elems)
    (h5 : s'.heap buf = s.heap buf) (hb : s.brk ≤ s'.brk) :
    Attached s' m c w ht buf xs := by
  obtain ⟨c1, c2, c3, c4, c5, c6, c7, c8, ⟨b1, b2, b3, b4, b5⟩⟩ := cell
  exact ⟨h1.trans c1, h2.trans c2, h3.trans c3, h4.trans c4, h5.trans c5, c6, c7, c8,
    ⟨by omega, by omega, by omega, by omega, by omega⟩⟩

/-- The members of an attached handle are not those of the empty handle. -/
theorem Attached.ne_null {s : State T} {m : Matrix} {c w ht : Int} {buf : Nat} {xs : List T}
    (cell : Attached s m c w ht buf xs) : m ≠ Matrix.null := by
  intro e
  have := cell.nonnull.1
  rw [e] at this
  exact this rfl

theorem Known.attached {s : State T} {m : Matrix} (k : Known s m) (hm : m ≠ Matrix.null) :
    ∃ c w ht buf xs, Attached s m c w ht buf xs := by
  rcases k with e | h
  · exact absurd e hm
  · exact h

theorem Separate.symm {s : State T} {m n : Matrix} (h : Separate s m n) : Separate s n m := by
  obtain ⟨h1, h2, h3, h4, h5, h6, h7, h8, h9, h10, h11⟩ := h
  exact ⟨h1.symm, h4.symm, h7.symm, h2.symm, h5.symm, h8.symm, h3.symm, h6.symm, h9.symm,
    h10.symm, h11.symm⟩

/-- The invariant when one entry of the table of objects changes and the free
store stays. -/
theorem Inv.set_objs {s : State T} (inv : Inv s) (i : Nat) (o : Option Matrix)
    (hk : ∀ m, o = some m → Known s m)
    (hs : ∀ m j n, o = some m → j ≠ i → s.objs j = some n → m ≠ Matrix.null →
      n ≠ Matrix.null → m = n ∨ Separate s m n) :
    Inv { s with objs := Function.update s.objs i o } := by
  refine ⟨inv.served, ?_, ?_⟩
  · intro j m hj
    by_cases e : j = i
    · subst e
      simp only [Function.update_same] at hj
      rcases hk m hj with h | ⟨c, w, ht, buf, xs, h⟩
      · exact Or.inl h
      · exact Or.inr ⟨c, w, ht, buf, xs, h.frame rfl rfl rfl rfl rfl (le_refl _)⟩
    · simp only [Function.update_noteq e] at hj
      rcases inv.handles j m hj with h | ⟨c, w, ht, buf, xs, h⟩
      · exact Or.inl h
      · exact Or.inr ⟨c, w, ht, buf, xs, h.frame rfl rfl rfl rfl rfl (le_refl _)⟩
  · intro j k m n hj hk' hm hn
    by_cases e : j = i <;> by_cases e' : k = i
    · subst e; subst e'
      simp only [Function.update_same] at hj hk'
      rw [hj] at hk'
      cases hk'
      exact Or.inl rfl
    · subst e
      simp only [Function.update_same, Function.update_noteq e'] at hj hk'
      exact hs m k n hj e' hk' hm hn
    · subst e'
      simp only [Function.update_same, Function.update_noteq e] at hj hk'
      rcases hs n j m hk' e hj hn hm with h | h
      · exact Or.inl h.symm
      · exact Or.inr h.symm
    · simp only [Function.update_noteq e, Function.update_noteq e'] at hj hk'
      exact inv.separate j k m n hj hk' hm hn

theorem Inv.at_start : Inv (State.init T) := by
  refine ⟨fun _ => rfl, ?_, ?_⟩
  · intro i m h
    cases h
  · intro i j m n h
    cases h

theorem inv_construct {s s' : State T} (inv : Inv s) (i : Nat)
    (hrun : construct i s = Outcome.ok () s') : Inv s' := by
  simp only [construct, setObj, Outcome.ok.injEq, true_and] at hrun
  subst hrun
  refine inv.set_objs i _ ?_ ?_
  · intro m hm
    cases hm
    exact Or.inl rfl
  · intro m j n hm _ _ hne
    cases hm
    exact absurd rfl hne

theorem Known.releasable {s : State T} {m : Matrix} (k : Known s m) : Releasable s m := by
  rcases k with h | ⟨c, w, ht, buf, xs, h⟩
  · left; rw [h]; rfl
  · exact Or.inr ⟨c, h.refct, h.counted⟩

theorem inv_destroy {s s' : State T} (inv : Inv s) (i : Nat)
    (hrun : destroy i s = Outcome.ok () s') : Inv s' := by
  cases hobj : s.objs i with
  | none => simp [destroy, bind_eq, gc, getObj, hobj] at hrun
  | some m =>
    rw [destroy_keeps_heap s i m hobj (inv.handles i m hobj).releasable] at hrun
    simp only [Outcome.ok.injEq, true_and] at hrun
    subst hrun
    exact inv.set_objs i none (fun _ h => by cases h) (fun _ _ _ h => by cases h)

theorem Attached.elems_ne_long {s : State T} {m : Matrix} {c w ht : Int} {buf : Nat}
    {xs : List T} (cell : Attached s m c w ht buf xs) {a : Nat} {v : Int}
    (ha : s.heap a = some (Obj.long v)) : m._elems ≠ a ∧ buf ≠ a := by
  constructor
  · intro e
    have := cell.elems
    rw [e, ha] at this
    cases this
  · intro e
    have := cell.buffer
    rw [e, ha] at this
    cases this

/-- The invariant when the count of a cell goes up by one. -/
theorem Inv.count_up {s : State T} (inv : Inv s) (j : Nat) (m : Matrix) (c w ht : Int) (buf : Nat)
    (xs : List T) (hj : s.objs j = some m) (cell : Attached s m c w ht buf xs) :
    Inv { s with heap := Function.update s.heap m._refct (some (Obj.long (c + 1))) } := by
  have hmn : m ≠ Matrix.null := cell.ne_null
  refine ⟨inv.served, ?_, ?_⟩
  · intro k n hk
    rcases inv.handles k n hk with h | ⟨c', w', ht', buf', xs', h⟩
    · exact Or.inl h
    · right
      rcases inv.separate j k m n hj hk hmn h.ne_null with e | sep
      · subst e
        exact ⟨c + 1, w, ht, buf, xs, cell.bump _⟩
      · obtain ⟨s1, s2, s3, _⟩ := sep
        obtain ⟨t1, t2⟩ := h.elems_ne_long cell.refct
        exact ⟨c', w', ht', buf', xs', h.frame
          (by simp [Function.update_apply, Ne.symm s1])
          (by simp [Function.update_apply, Ne.symm s2])
          (by simp [Function.update_apply, Ne.symm s3])
          (by simp [Function.update_apply, t1])
          (by simp [Function.update_apply, t2]) (le_refl _)⟩
  · intro k l n p hk hl hn hp
    rcases inv.separate k l n p hk hl hn hp with e | sep
    · exact Or.inl e
    · right
      obtain ⟨h1, h2, h3, h4, h5, h6, h7, h8, h9, h10, h11⟩ := sep
      obtain ⟨_, _, _, _, _, cn⟩ := (inv.handles k n hk).attached hn
      obtain ⟨_, _, _, _, _, cp⟩ := (inv.handles l p hl).attached hp
      refine ⟨h1, h2, h3, h4, h5, h6, h7, h8, h9, h10, ?_⟩
      simp only [Function.update_apply, (cn.elems_ne_long cell.refct).1,
        (cp.elems_ne_long cell.refct).1, if_false]
      exact h11

/-- The invariant when a handle takes the members of a live handle. -/
theorem Inv.share {s : State T} (inv : Inv s) (i j : Nat) (m : Matrix)
    (hj : s.objs j = some m) :
    Inv { s with objs := Function.update s.objs i (some m) } := by
  refine inv.set_objs i _ ?_ ?_
  · intro n hn
    cases hn
    exact inv.handles j m hj
  · intro n k p hn _ hk hnn hp
    cases hn
    exact inv.separate j k m p hj hk hnn hp

theorem inv_copy {s s' : State T} (inv : Inv s) (i j : Nat)
    (hrun : Matrix_copy i j s = Outcome.ok () s') : Inv s' := by
  by_cases e : i = j
  · subst e
    simp [Matrix_copy, bind_eq, construct, setObj, getObj, set_elems, set_width, set_height,
      set_refct, increment, readLong] at hrun
  · cases hobj : s.objs j with
    | none =>
      simp [Matrix_copy, bind_eq, construct, setObj, getObj, Function.update_apply, Ne.symm e,
        hobj] at hrun
    | some m =>
      rcases inv.handles j m hobj with h | ⟨c, w, ht, buf, xs, cell⟩
      · subst h
        simp [Matrix_copy, bind_eq, construct, setObj, getObj, set_elems, set_width,
          set_height, set_refct, Function.update_apply, Ne.symm e, hobj, Matrix.null,
          increment, readLong] at hrun
      · by_cases hmax : c < LONG_MAX
        · rw [Matrix_copy_eq s i j m c e hobj cell.nonnull.1 cell.refct cell.counted hmax] at hrun
          simp only [Outcome.ok.injEq, true_and] at hrun
          subst hrun
          exact (inv.count_up j m c w ht buf xs hobj cell).share i j m hobj
        · have r : ¬ (LONG_MIN ≤ c + 1 ∧ c + 1 ≤ LONG_MAX) := fun h => hmax (by omega)
          simp [Matrix_copy, bind_eq, construct, setObj, getObj, set_elems, set_width,
            set_height, set_refct, Function.update_apply, Ne.symm e, hobj,
            increment, readLong, cell.nonnull.1, cell.refct, toLong, r, undefined] at hrun

theorem inv_assign {s s' : State T} (inv : Inv s) (i j : Nat)
    (hrun : assign i j s = Outcome.ok () s') : Inv s' := by
  cases hdst : s.objs i with
  | none => simp [assign, bind_eq, gc, getObj, hdst] at hrun
  | some d =>
    obtain ⟨b, d', hgc⟩ := gc_frame s i d hdst (inv.handles i d hdst).releasable
    by_cases e : i = j
    · subst e
      simp [assign, bind_eq, hgc, construct, setObj, getObj, set_elems, set_width, set_height,
        set_refct, increment, readLong] at hrun
    · cases hobj : s.objs j with
      | none =>
        simp [assign, bind_eq, hgc, construct, setObj, getObj, Function.update_apply,
          Ne.symm e, hobj] at hrun
      | some m =>
        rcases inv.handles j m hobj with h | ⟨c, w, ht, buf, xs, cell⟩
        · subst h
          simp [assign, bind_eq, hgc, construct, setObj, getObj, set_elems, set_width,
            set_height, set_refct, Function.update_apply, Ne.symm e, hobj, Matrix.null,
            increment, readLong] at hrun
        · by_cases hmax : c < LONG_MAX
          · rw [assign_eq s i j m d c e hobj cell.nonnull.1 cell.refct cell.counted hmax hdst
              (inv.handles i d hdst).releasable] at hrun
            simp only [Outcome.ok.injEq, true_and] at hrun
            subst hrun
            exact (inv.count_up j m c w ht buf xs hobj cell).share i j m hobj
          · have r : ¬ (LONG_MIN ≤ c + 1 ∧ c + 1 ≤ LONG_MAX) := fun h => hmax (by omega)
            simp [assign, bind_eq, hgc, construct, setObj, getObj, set_elems, set_width,
              set_height, set_refct, Function.update_apply, Ne.symm e, hobj,
              increment, readLong, cell.nonnull.1, cell.refct, toLong, r, undefined] at hrun

theorem bind_ok_inv {α β : Type} {m : M T α} {f : α → M T β} {s s' : State T} {b : β}
    (h : (m >>= f) s = Outcome.ok b s') :
    ∃ a s1, m s = Outcome.ok a s1 ∧ f a s1 = Outcome.ok b s' := by
  rw [bind_eq] at h
  cases hm : m s with
  | ok a s1 =>
    rw [hm] at h
    exact ⟨a, s1, rfl, h⟩
  | threw e s1 =>
    rw [hm] at h
    cases h
  | ub u =>
    rw [hm] at h
    cases h

theorem reads_bind {α β : Type} {m : M T α} {f : α → M T β} (hm : Reads m)
    (hf : ∀ a, Reads (f a)) : Reads (m >>= f) := by
  intro s b s' h
  obtain ⟨a, s1, h1, h2⟩ := bind_ok_inv h
  have e := hm s a s1 h1
  subst e
  exact hf a _ b s' h2

theorem reads_ite {α : Type} {c : Prop} [Decidable c] {m n : M T α} (hm : Reads m)
    (hn : Reads n) : Reads (if c then m else n) := by
  split
  · exact hm
  · exact hn

theorem reads_throwExn {α : Type} (e : Exn) : Reads (throwExn e : M T α) := by
  intro s a s' h
  cases h

theorem reads_getObj (n : Nat) : Reads (getObj n : M T Matrix) := by
  intro s a s' h
  unfold nn.getObj at h
  split at h
  · cases h; rfl
  · cases h

theorem reads_readSlot (p : Nat) : Reads (readSlot p : M T Nat) := by
  intro s a s' h
  unfold nn.readSlot at h
  split at h
  · cases h
  · split at h
    · cases h; rfl
    · cases h

theorem reads_readLong (p : Nat) : Reads (readLong p : M T Int) := by
  intro s a s' h
  unfold nn.readLong at h
  split at h
  · cases h
  · split at h
    · cases h; rfl
    · cases h

theorem reads_toLong (v : Int) : Reads (toLong v : M T Int) := by
  intro s a s' h
  unfold nn.toLong at h
  split at h
  · cases h; rfl
  · cases h

theorem reads_index (p : Nat) (o : Int) : Reads (index p o : M T Ref) := by
  intro s a s' h
  unfold nn.index at h
  split at h
  · cases h
  · split at h
    · split at h
      · cases h; rfl
      · cases h
    · cases h

/-- The function `get` does not change the state. -/
theorem reads_get (this : Nat) (x y : Int) : Reads (get this x y : M T Ref) := by
  unfold nn.get
  refine reads_bind (reads_getObj _) fun h => ?_
  refine reads_ite (reads_throwExn _) ?_
  refine reads_bind (reads_readSlot _) fun p => ?_
  refine reads_ite (reads_throwExn _) ?_
  refine reads_bind (reads_readLong _) fun w => ?_
  refine reads_ite (reads_throwExn _) ?_
  refine reads_bind (reads_readLong _) fun ht => ?_
  refine reads_ite (reads_throwExn _) ?_
  refine reads_ite (reads_throwExn _) ?_
  refine reads_ite (reads_throwExn _) ?_
  refine reads_bind (reads_readSlot _) fun p => ?_
  refine reads_bind (reads_readLong _) fun w => ?_
  refine reads_bind (reads_toLong _) fun wx => ?_
  refine reads_bind (reads_toLong _) fun off => ?_
  exact reads_index _ _

/-- The invariant when the contents of a buffer change. -/
theorem Inv.rewrite_buffer {s : State T} (inv : Inv s) (b : Nat) (zs ys : List T)
    (hb : s.heap b = some (Obj.arr zs)) :
    Inv { s with heap := Function.update s.heap b (some (Obj.arr ys)) } := by
  have key : ∀ {n : Matrix} {c w ht : Int} {buf : Nat} {xs : List T},
      Attached s n c w ht buf xs →
      n._refct ≠ b ∧ n._width ≠ b ∧ n._height ≠ b ∧ n._elems ≠ b := by
    intro n c w ht buf xs h
    refine ⟨?_, ?_, ?_, ?_⟩ <;> intro e
    · have := h.refct; rw [e, hb] at this; cases this
    · have := h.width; rw [e, hb] at this; cases this
    · have := h.height; rw [e, hb] at this; cases this
    · have := h.elems; rw [e, hb] at this; cases this
  refine ⟨inv.served, ?_, ?_⟩
  · intro k n hk
    rcases inv.handles k n hk with h | ⟨c, w, ht, buf, xs, h⟩
    · exact Or.inl h
    · right
      obtain ⟨k1, k2, k3, k4⟩ := key h
      by_cases e : buf = b
      · subst e
        exact ⟨c, w, ht, buf, ys,
          ⟨by simp [Function.update_apply, k1, h.refct],
           by simp [Function.update_apply, k2, h.width],
           by simp [Function.update_apply, k3, h.height],
           by simp [Function.update_apply, k4, h.elems],
           by simp, h.nonnull, h.apart, h.counted, h.below⟩⟩
      · exact ⟨c, w, ht, buf, xs, h.frame
          (by simp [Function.update_apply, k1]) (by simp [Function.update_apply, k2])
          (by simp [Function.update_apply, k3]) (by simp [Function.update_apply, k4])
          (by simp [Function.update_apply, e]) (le_refl _)⟩
  · intro k l n p hk hl hn hp
    rcases inv.separate k l n p hk hl hn hp with e | sep
    · exact Or.inl e
    · right
      obtain ⟨h1, h2, h3, h4, h5, h6, h7, h8, h9, h10, h11⟩ := sep
      obtain ⟨_, _, _, _, _, cn⟩ := (inv.handles k n hk).attached hn
      obtain ⟨_, _, _, _, _, cp⟩ := (inv.handles l p hl).attached hp
      refine ⟨h1, h2, h3, h4, h5, h6, h7, h8, h9, h10, ?_⟩
      simp only [Function.update_apply, (key cn).2.2.2, (key cp).2.2.2, if_false]
      exact h11

theorem inv_store {s s' : State T} (inv : Inv s) (r : Ref) (v : T)
    (hrun : store r v s = Outcome.ok () s') : Inv s' := by
  unfold store at hrun
  split at hrun
  · rename_i xs hx
    split at hrun
    · simp only [Outcome.ok.injEq, true_and] at hrun
      subst hrun
      exact inv.rewrite_buffer r.buf xs _ hx
    · cases hrun
  · cases hrun

theorem inv_put {s s' : State T} (inv : Inv s) (this : Nat) (x y : Int) (v : T)
    (hrun : put this x y v s = Outcome.ok () s') : Inv s' := by
  unfold put at hrun
  obtain ⟨r, s1, h1, h2⟩ := bind_ok_inv hrun
  have e := reads_get this x y s r s1 h1
  subst e
  exact inv_store inv r v h2

theorem inv_memcpy {s s' : State T} (inv : Inv s) (dst src : Nat) (n : Int)
    (hrun : memcpy dst src n s = Outcome.ok () s') : Inv s' := by
  unfold memcpy at hrun
  split at hrun
  · cases hrun
  · split at hrun
    · rename_i d xs hd hx
      split at hrun
      · cases hrun
      · split at hrun
        · cases hrun
        · split at hrun
          · cases hrun
          · simp only [Outcome.ok.injEq, true_and] at hrun
            subst hrun
            exact inv.rewrite_buffer dst d _ hd
    · cases hrun
    · cases hrun

/-- When `new` never fails, a call of `create_local` that returns has
returned `true`. -/
theorem create_local_true [Inhabited T] (s s' : State T) (this : Nat) (hd : Matrix)
    (width height : Int) (b : Bool)
    (served : ∀ k, s.oracle k = true)
    (hdst : s.objs this = some hd) (hdok : Releasable s hd)
    (hrun : create_local this width height s = Outcome.ok b s') : b = true := by
  obtain ⟨b0, m, hm⟩ := gc_frame s this hd hdst hdok
  simp only [create_local, bind_eq, hm] at hrun
  simp [bind_eq, pure_eq, getObj, setObj, set_refct, set_width, set_height, set_elems,
    newScalar, grant, place, served, delete] at hrun
  simp (disch := omega) [bind_eq, pure_eq, writeLong, readLong, Function.update_noteq] at hrun
  by_cases r1 : LONG_MIN ≤ width * height ∧ width * height ≤ LONG_MAX
  · by_cases r2 : width * height < 0 <;>
    simp [toLong, r1, r2, pure_eq, undefined, newArray, throwExn, bind_eq, grant, place,
      served] at hrun
    simp (disch := omega) [bind_eq, pure_eq, writeSlot, readSlot, Function.update_noteq] at hrun
    exact hrun.1
  · simp [toLong, r1, undefined] at hrun

theorem inv_create_local [Inhabited T] {s s' : State T} (inv : Inv s) (i : Nat)
    (width height : Int) (b : Bool)
    (hrun : create_local i width height s = Outcome.ok b s') : Inv s' := by
  cases hobj : s.objs i with
  | none => simp [create_local, bind_eq, gc, getObj, hobj] at hrun
  | some d =>
    have hrel := (inv.handles i d hobj).releasable
    have hb := create_local_true s s' i d width height b inv.served hobj hrel hrun
    subst hb
    obtain ⟨p1, _, p3, p4, p5, p6, p7, p8, p9, p10, p11⟩ :=
      create_local_ok s s' i d width height hobj hrel hrun
    have hserved : ∀ k, s'.oracle k = true := by
      rw [p11]
      exact inv.served
    have old : ∀ {n : Matrix} {c w ht : Int} {buf : Nat} {xs : List T},
        Attached s n c w ht buf xs → Attached s' n c w ht buf xs := by
      intro n c w ht buf xs h
      obtain ⟨b1, b2, b3, b4, b5⟩ := h.below
      exact h.frame (p10 _ b1) (p10 _ b2) (p10 _ b3) (p10 _ b4) (p10 _ b5) (by omega)
    have fresh : Attached s' (Matrix.mk (s.brk + 4) (s.brk + 1) (s.brk + 2) (s.brk + 3)) 1
        width height (s.brk + 5) (List.replicate (width * height).toNat default) := by
      refine ⟨p5, p6, p7, p8, p9, ?_, ?_, le_refl _, ?_⟩
      · exact ⟨by simp, by simp, by simp, by simp, by simp⟩
      · exact ⟨by simp, by simp, by simp⟩
      · rw [p3]
        exact ⟨by simp, by simp, by simp, by simp, by simp⟩
    have apart : ∀ {n : Matrix} {c w ht : Int} {buf : Nat} {xs : List T},
        Attached s n c w ht buf xs →
        Separate s' (Matrix.mk (s.brk + 4) (s.brk + 1) (s.brk + 2) (s.brk + 3)) n := by
      intro n c w ht buf xs h
      obtain ⟨b1, b2, b3, b4, b5⟩ := h.below
      refine ⟨?_, ?_, ?_, ?_, ?_, ?_, ?_, ?_, ?_, ?_, ?_⟩
      any_goals (simp only; omega)
      simp only
      rw [p8, p10 _ b4, h.elems]
      intro e
      simp only [Option.some.injEq, Obj.slot.injEq] at e
      omega
    refine ⟨hserved, ?_, ?_⟩
    · intro k n hk
      rw [p4] at hk
      by_cases e : k = i
      · subst e
        simp only [Function.update_same, Option.some.injEq] at hk
        subst hk
        exact Or.inr ⟨_, _, _, _, _, fresh⟩
      · simp only [Function.update_noteq e] at hk
        rcases inv.handles k n hk with h | ⟨c, w, ht, buf, xs, h⟩
        · exact Or.inl h
        · exact Or.inr ⟨c, w, ht, buf, xs, old h⟩
    · intro k l n p hk hl hn hp
      rw [p4] at hk hl
      by_cases e : k = i <;> by_cases e' : l = i
      · subst e; subst e'
        simp only [Function.update_same] at hk hl
        rw [hk] at hl
        cases hl
        exact Or.inl rfl
      · subst e
        simp only [Function.update_same, Function.update_noteq e', Option.some.injEq] at hk hl
        subst hk
        obtain ⟨_, _, _, _, _, cp⟩ := (inv.handles l p hl).attached hp
        exact Or.inr (apart cp)
      · subst e'
        simp only [Function.update_same, Function.update_noteq e, Option.some.injEq] at hk hl
        subst hl
        obtain ⟨_, _, _, _, _, cn⟩ := (inv.handles k n hk).attached hn
        exact Or.inr (apart cn).symm
      · simp only [Function.update_noteq e, Function.update_noteq e'] at hk hl
        rcases inv.separate k l n p hk hl hn hp with h | sep
        · exact Or.inl h
        · right
          obtain ⟨h1, h2, h3, h4, h5, h6, h7, h8, h9, h10, h11⟩ := sep
          obtain ⟨_, _, _, _, _, cn⟩ := (inv.handles k n hk).attached hn
          obtain ⟨_, _, _, _, _, cp⟩ := (inv.handles l p hl).attached hp
          refine ⟨h1, h2, h3, h4, h5, h6, h7, h8, h9, h10, ?_⟩
          rw [p10 _ cn.below.2.2.2.1, p10 _ cp.below.2.2.2.1]
          exact h11

theorem inv_create_global [Inhabited T] {s s' : State T} (inv : Inv s) (i : Nat)
    (width height : Int) (b : Bool)
    (hrun : create_global i width height s = Outcome.ok b s') : Inv s' := by
  cases hobj : s.objs i with
  | none => simp [create_global, bind_eq, getObj, hobj] at hrun
  | some m =>
    rcases inv.handles i m hobj with hnull | ⟨c, w0, h0, buf, xs, cell⟩
    · have e : create_global i width height s = create_local i width height s := by
        simp [create_global, bind_eq, getObj, hobj, hnull, Matrix.null]
      rw [e] at hrun
      exact inv_create_local inv i width height b hrun
    · exact (create_global_attached_stuck s s' i m c w0 h0 buf xs width height b inv.served
        hobj cell hrun).elim

theorem inv_dims [Inhabited T] {s s' : State T} (inv : Inv s) (i : Nat) (width height : Int)
    (hrun : Matrix_dims i width height s = Outcome.ok () s') : Inv s' := by
  unfold Matrix_dims at hrun
  split at hrun
  · cases hrun
  · rename_i r hr
    obtain ⟨_, s1, h1, h2⟩ := bind_ok_inv hrun
    obtain ⟨b, s2, h3, h4⟩ := bind_ok_inv h2
    cases h4
    exact inv_create_global (inv_construct inv i h1) i width height b h3

theorem inv_clone [Inhabited T] {s s' : State T} (inv : Inv s) (i res : Nat)
    (hrun : clone i res s = Outcome.ok () s') : Inv s' := by
  unfold clone at hrun
  obtain ⟨h, s1, h1, r1⟩ := bind_ok_inv hrun
  have e1 := reads_getObj i s h s1 h1
  subst e1
  obtain ⟨_, s2, h2, r2⟩ := bind_ok_inv r1
  have inv2 := inv_dims inv res _ _ h2
  obtain ⟨mat, s3, h3, r3⟩ := bind_ok_inv r2
  have e3 := reads_getObj res s2 mat s3 h3
  subst e3
  obtain ⟨dst, s4, h4, r4⟩ := bind_ok_inv r3
  have e4 := reads_readSlot _ _ dst s4 h4
  subst e4
  obtain ⟨src, s5, h5, r5⟩ := bind_ok_inv r4
  have e5 := reads_readSlot _ _ src s5 h5
  subst e5
  obtain ⟨w, s6, h6, r6⟩ := bind_ok_inv r5
  have e6 := reads_readLong _ _ w s6 h6
  subst e6
  obtain ⟨ht, s7, h7, r7⟩ := bind_ok_inv r6
  have e7 := reads_readLong _ _ ht s7 h7
  subst e7
  obtain ⟨n, s8, h8, r8⟩ := bind_ok_inv r7
  have e8 := reads_toLong _ _ n s8 h8
  subst e8
  exact inv_memcpy inv2 dst src n r8

theorem inv_perform [Inhabited T] {s s' : State T} (inv : Inv s) (op : Op T)
    (hrun : op.perform s = Outcome.ok () s') : Inv s' := by
  cases op with
  | construct name => exact inv_construct inv name hrun
  | construct_dims name width height => exact inv_dims inv name width height hrun
  | construct_copy name mat => exact inv_copy inv name mat hrun
  | assign this m => exact inv_assign inv this m hrun
  | create_local this width height =>
    obtain ⟨b, s1, h1, h2⟩ := bind_ok_inv hrun
    cases h2
    exact inv_create_local inv this width height b h1
  | create_global this width height =>
    obtain ⟨b, s1, h1, h2⟩ := bind_ok_inv hrun
    cases h2
    exact inv_create_global inv this width height b h1
  | put this x y v => exact inv_put inv this x y v hrun
  | clone this res => exact inv_clone inv this res hrun
  | destroy this => exact inv_destroy inv this hrun

theorem inv_perform_all [Inhabited T] (ops : List (Op T)) {s s' : State T} (inv : Inv s)
    (hrun : perform_all ops s = Outcome.ok () s') : Inv s' := by
  induction ops generalizing s with
  | nil =>
    cases hrun
    exact inv
  | cons op rest ih =>
    obtain ⟨_, s1, h1, h2⟩ := bind_ok_inv hrun
    exact ih (inv_perform inv op h1) h2

/-- In every state that client code reaches without a failure of `new`, each
live handle is empty or refers to a cell, with a count of at least one, and
two live handles share all their members or refer to separate cells. -/
theorem reachable_inv [Inhabited T] {s : State T} (h : Reachable s) : Inv s := by
  obtain ⟨ops, hrun⟩ := h
  exact inv_perform_all ops Inv.at_start hrun

/-- In every reachable state no live handle points above the highest address
handed out. -/
theorem reachable_settled [Inhabited T] {s : State T} (h : Reachable s) : Settled s := by
  intro i m hm
  rcases (reachable_inv h).handles i m hm with e | ⟨c, w, ht, buf, xs, cell⟩
  · subst e
    exact ⟨Nat.zero_le _, Nat.zero_le _, Nat.zero_le _, Nat.zero_le _⟩
  · obtain ⟨b1, b2, b3, b4, _⟩ := cell.below
    exact ⟨b1, b2, b3, b4⟩

/-- In every reachable state a live handle whose `_refct` is not null refers
to a cell. -/
theorem reachable_attached [Inhabited T] {s : State T} (h : Reachable s) (i : Nat)
    (m : Matrix) (hm : s.objs i = some m) (hr : m._refct ≠ 0) :
    ∃ c w ht buf xs, Attached s m c w ht buf xs := by
  refine ((reachable_inv h).handles i m hm).attached ?_
  intro e
  rw [e] at hr
  exact hr rfl

/-- In a reachable state the destructor returns and leaves the whole free
store as it was: nothing is released and no count changes. -/
theorem destroy_frees_nothing [Inhabited T] {s : State T} (h : Reachable s) (i : Nat)
    (m : Matrix) (hm : s.objs i = some m) :
    destroy i s = Outcome.ok () { s with objs := Function.update s.objs i none } :=
  destroy_keeps_heap s i m hm ((reachable_inv h).handles i m hm).releasable

/-- In a reachable state, whenever `clone` returns, the width and the height
of the clone are the addresses held in the members `_width` and `_height` of
the source. -/
theorem clone_takes_addresses [Inhabited T] {s s' : State T} (h : Reachable s)
    (this res : Nat) (hA : Matrix) (hobj : s.objs this = some hA)
    (hrun : clone this res s = Outcome.ok () s') :
    ∃ hC, s'.objs res = some hC ∧
      s'.heap hC._width = some (Obj.long hA._width) ∧
      s'.heap hC._height = some (Obj.long hA._height) := by
  have inv := reachable_inv h
  unfold clone at hrun
  obtain ⟨hA', s0, h0, r0⟩ := bind_ok_inv hrun
  have e0 := reads_getObj this s hA' s0 h0
  subst e0
  have eA : hA' = hA := by
    simp only [getObj, hobj, Outcome.ok.injEq, and_true] at h0
    exact h0.symm
  subst eA
  obtain ⟨_, s2, h2, r2⟩ := bind_ok_inv r0
  -- the constructor
  unfold Matrix_dims at h2
  split at h2
  · cases h2
  rename_i r hr
  obtain ⟨_, s1, c1, c2⟩ := bind_ok_inv h2
  obtain ⟨b, s2', c3, c4⟩ := bind_ok_inv c2
  cases c4
  have inv1 := inv_construct inv res c1
  have hres : s1.objs res = some Matrix.null := by
    simp only [construct, setObj, Outcome.ok.injEq, true_and] at c1
    subst c1
    simp [Matrix.null]
  have e : create_global res (hA'._width : Int) (hA'._height : Int) s1 =
      create_local res (hA'._width : Int) (hA'._height : Int) s1 := by
    simp [create_global, bind_eq, getObj, hres, Matrix.null]
  rw [e] at c3
  have hrel : Releasable s1 Matrix.null := Or.inl rfl
  have hb := create_local_true s1 s2 res Matrix.null _ _ b inv1.served hres hrel c3
  subst hb
  obtain ⟨_, _, _, p4, _, p6, p7, p8, p9, _, _⟩ :=
    create_local_ok s1 s2 res Matrix.null _ _ hres hrel c3
  -- the copy
  obtain ⟨mat, s3, h3, r3⟩ := bind_ok_inv r2
  have e3 := reads_getObj res s2 mat s3 h3
  subst e3
  have emat : mat = Matrix.mk (s1.brk + 4) (s1.brk + 1) (s1.brk + 2) (s1.brk + 3) := by
    simp only [getObj, p4, Function.update_same, Outcome.ok.injEq, and_true] at h3
    exact h3.symm
  subst emat
  obtain ⟨dst, s4, h4, r4⟩ := bind_ok_inv r3
  have e4 := reads_readSlot _ _ dst s4 h4
  subst e4
  have edst : dst = s1.brk + 5 := by
    simp only [readSlot, p8] at h4
    simp at h4
    exact h4.symm
  subst edst
  obtain ⟨src, s5, h5, r5⟩ := bind_ok_inv r4
  have e5 := reads_readSlot _ _ src s5 h5
  subst e5
  obtain ⟨w, s6, h6, r6⟩ := bind_ok_inv r5
  have e6 := reads_readLong _ _ w s6 h6
  subst e6
  obtain ⟨ht, s7, h7, r7⟩ := bind_ok_inv r6
  have e7 := reads_readLong _ _ ht s7 h7
  subst e7
  obtain ⟨n, s8, h8, r8⟩ := bind_ok_inv r7
  have e8 := reads_toLong _ _ n s8 h8
  subst e8
  unfold memcpy at r8
  split at r8
  · cases r8
  split at r8
  · split at r8
    · cases r8
    split at r8
    · cases r8
    split at r8
    · cases r8
    simp only [Outcome.ok.injEq, true_and] at r8
    subst r8
    refine ⟨_, p4 ▸ Function.update_same _ _ _, ?_, ?_⟩
    · simp only [Function.update_apply]
      rw [if_neg (by omega)]
      exact p6
    · simp only [Function.update_apply]
      rw [if_neg (by omega)]
      exact p7
  · cases r8
  · cases r8

/-- In a reachable state `clone` returns only when the product of the two
addresses held in `_width` and `_height` of the source is a `long`. -/
theorem clone_needs_small_addresses [Inhabited T] {s s' : State T} (h : Reachable s)
    (this res : Nat) (hA : Matrix) (hobj : s.objs this = some hA)
    (hrun : clone this res s = Outcome.ok () s') :
    (hA._width : Int) * (hA._height : Int) ≤ LONG_MAX := by
  have inv := reachable_inv h
  unfold clone at hrun
  obtain ⟨hA', s0, h0, r0⟩ := bind_ok_inv hrun
  have e0 := reads_getObj this s hA' s0 h0
  subst e0
  have eA : hA' = hA := by
    simp only [getObj, hobj, Outcome.ok.injEq, and_true] at h0
    exact h0.symm
  subst eA
  obtain ⟨_, s2, h2, r2⟩ := bind_ok_inv r0
  -- the constructor
  unfold Matrix_dims at h2
  split at h2
  · cases h2
  rename_i r hr
  obtain ⟨_, s1, c1, c2⟩ := bind_ok_inv h2
  obtain ⟨b, s2', c3, c4⟩ := bind_ok_inv c2
  cases c4
  have inv1 := inv_construct inv res c1
  have hres : s1.objs res = some Matrix.null := by
    simp only [construct, setObj, Outcome.ok.injEq, true_and] at c1
    subst c1
    simp [Matrix.null]
  have e : create_global res (hA'._width : Int) (hA'._height : Int) s1 =
      create_local res (hA'._width : Int) (hA'._height : Int) s1 := by
    simp [create_global, bind_eq, getObj, hres, Matrix.null]
  rw [e] at c3
  have hrel : Releasable s1 Matrix.null := Or.inl rfl
  have hb := create_local_true s1 s2 res Matrix.null _ _ b inv1.served hres hrel c3
  subst hb
  exact (create_local_ok s1 s2 res Matrix.null _ _ hres hrel c3).2.1

end invariant

/-! ## The claims -/

section claims

variable {T : Type}

/-- C1 (fails on the code): on the handle built by `Matrix(3, 1)` the cell has
width 3, height 1 and a buffer of 3 elements, and `get(2, 0)`, whose
coordinates lie inside the rectangle, passes the range check and indexes the
buffer at offset `3 * 2 + 0 = 6`, outside of it. -/
theorem C1_get_inside_rectangle_leaves_buffer :
    run wide_cell = Verdict.ok (Seen.long 3, Seen.long 1, Seen.arr 3) ∧
    run wide_get = Verdict.ub (UB.out_of_bounds 6 3) := by
  constructor <;> decide

/-- C2 (fails on the code): on the handle built by `Matrix(2, 3)` the index
map `width * x + y` sends the two valid coordinates `(0, 2)` and `(1, 0)` to
the same element, offset 2 of the buffer, through `get` and through
`get_unchecked`. -/
theorem C2_index_map_collides :
    run tall_refs =
      Verdict.ok ({ buf := 5, off := 2 }, { buf := 5, off := 2 },
        { buf := 5, off := 2 }, { buf := 5, off := 2 }) := by
  decide

/-- C3 (fails on the code): after the only handle of a cell has been
destroyed, the count of the cell is still 1 and the width, the height, the
`T*` object and the buffer are all still allocated. -/
theorem C3_destructor_of_sole_owner_frees_nothing :
    run sole_owner_dies =
      Verdict.ok (some { _elems := 4, _refct := 1, _width := 2, _height := 3 },
        [Seen.long 1, Seen.long 2, Seen.long 2, Seen.slot 5, Seen.arr 4]) := by
  decide

/-- C4 (fails on the code): after `Matrix A(2, 2); { Matrix B(A); }` the
object `A` is the only live handle, and the count of its cell is 2. -/
theorem C4_count_exceeds_live_handles :
    ∃ s h, copy_then_destroy (State.init Int) = Outcome.ok () s ∧
      s.objs 0 = some h ∧ (∀ i, i ≠ 0 → s.objs i = none) ∧
      s.heap h._refct = some (Obj.long 2) := by
  refine ⟨_, _, rfl, rfl, ?_, rfl⟩
  intro i hi
  rcases i with _ | _ | i
  · exact absurd rfl hi
  · rfl
  · rfl

/-- C5 (fails on the code): with `A(3, 1)` and `B` a copy of `A`, made by the
copy constructor or by `operator=`, `B.get(2, 0)` has valid coordinates and
indexes the shared 3-element buffer at offset 6, so that nothing can be
written there; on `A(2, 2)` the value 5 written through `B.get(0, 0)` is read
back through `A.get(0, 0)`. -/
theorem C5_write_through_copy_leaves_buffer :
    run wide_copy_get = Verdict.ub (UB.out_of_bounds 6 3) ∧
    run wide_assign_get = Verdict.ub (UB.out_of_bounds 6 3) ∧
    run square_alias = Verdict.ok 5 := by
  refine ⟨?_, ?_, ?_⟩ <;> decide

/-- C6: copy-constructing `fresh` from `mat`, and assigning `mat` to another
object `this` whose own release leaves the free store alone, both return,
change the free store at the count of the cell of `mat` only, which goes from
`c` to `c + 1`, and leave the new handle with the members of `mat`; width,
height, buffer and buffer contents of the cell are as before. -/
theorem C6_copy_adds_one_to_count (s : State T) (fresh this mat : Nat) (hs hd : Matrix)
    (c w ht : Int) (buf : Nat) (xs : List T)
    (hfresh : fresh ≠ mat) (hthis : this ≠ mat)
    (hsrc : s.objs mat = some hs) (cell : Attached s hs c w ht buf xs)
    (hmax : c < LONG_MAX)
    (hdst : s.objs this = some hd) (hdok : Releasable s hd) :
    (∃ s', Matrix_copy fresh mat s = Outcome.ok () s' ∧
        s'.heap = Function.update s.heap hs._refct (some (Obj.long (c + 1))) ∧
        s'.objs fresh = some hs ∧ s'.objs mat = some hs ∧
        Attached s' hs (c + 1) w ht buf xs) ∧
    (∃ s', assign this mat s = Outcome.ok () s' ∧
        s'.heap = Function.update s.heap hs._refct (some (Obj.long (c + 1))) ∧
        s'.objs this = some hs ∧ s'.objs mat = some hs ∧
        Attached s' hs (c + 1) w ht buf xs) := by
  constructor
  · refine ⟨_, Matrix_copy_eq s fresh mat hs c hfresh hsrc cell.nonnull.1 cell.refct
      cell.counted hmax, rfl, ?_, ?_, cell.bump _⟩
    · simp
    · simp [Function.update_apply, Ne.symm hfresh, hsrc]
  · refine ⟨_, assign_eq s this mat hs hd c hthis hsrc cell.nonnull.1 cell.refct
      cell.counted hmax hdst hdok, rfl, ?_, ?_, cell.bump _⟩
    · simp
    · simp [Function.update_apply, Ne.symm hthis, hsrc]

theorem one_cell_attached :
    Attached one_cell { _elems := 4, _refct := 1, _width := 2, _height := 3 } 1 2 2 5
      [0, 0, 0, 0] := by
  constructor <;> decide

/-- Witness of C6: on the state after `Matrix A(2, 2); Matrix B;`, for
`Matrix C(A)` and for `B = A`. -/
theorem C6_witness :
    (∃ s', Matrix_copy 2 0 one_cell = Outcome.ok () s' ∧
        s'.heap = Function.update one_cell.heap 1 (some (Obj.long (1 + 1))) ∧
        s'.objs 2 = some { _elems := 4, _refct := 1, _width := 2, _height := 3 } ∧
        s'.objs 0 = some { _elems := 4, _refct := 1, _width := 2, _height := 3 } ∧
        Attached s' { _elems := 4, _refct := 1, _width := 2, _height := 3 } (1 + 1) 2 2 5
          [0, 0, 0, 0]) ∧
    (∃ s', assign 1 0 one_cell = Outcome.ok () s' ∧
        s'.heap = Function.update one_cell.heap 1 (some (Obj.long (1 + 1))) ∧
        s'.objs 1 = some { _elems := 4, _refct := 1, _width := 2, _height := 3 } ∧
        s'.objs 0 = some { _elems := 4, _refct := 1, _width := 2, _height := 3 } ∧
        Attached s' { _elems := 4, _refct := 1, _width := 2, _height := 3 } (1 + 1) 2 2 5
          [0, 0, 0, 0]) :=
  C6_copy_adds_one_to_count one_cell 2 1 0
    { _elems := 4, _refct := 1, _width := 2, _height := 3 }
    { _elems := 0, _refct := 0, _width := 0, _height := 0 } 1 2 2 5 [0, 0, 0, 0]
    (by decide) (by decide) rfl one_cell_attached (by decide) rfl (Or.inl rfl)

/-- C7 (fails on the code): three handles alias one `3 x 1` cell, two of them
are destroyed, and `get(2, 0)` through the survivor, with valid coordinates,
indexes the 3-element buffer at offset 6: that coordinate cannot be read. -/
theorem C7_survivor_cannot_read_every_coordinate :
    run wide_survivor_get = Verdict.ub (UB.out_of_bounds 6 3) := by
  decide

theorem shared_cell_attached :
    Attached shared_cell { _elems := 4, _refct := 1, _width := 2, _height := 3 } 2 2 2 5
      [0, 0, 0, 0] := by
  constructor <;> decide

theorem shared_cell_settled : Settled shared_cell := by
  intro i m hm
  rcases i with _ | _ | i
  · have e : shared_cell.objs 0 = some ⟨4, 1, 2, 3⟩ := rfl
    rw [e] at hm
    cases hm
    decide
  · have e : shared_cell.objs 1 = some ⟨4, 1, 2, 3⟩ := rfl
    rw [e] at hm
    cases hm
    decide
  · have e : shared_cell.objs (i + 2) = none := rfl
    rw [e] at hm
    cases hm

/-- C8 (fails on the code): after `Matrix A(2, 2); Matrix B(A);` the call
`A.create_global(3, 3)`, whose request to `new` is served, releases the old
buffer, which `new T[4]` has made, by `delete`, the form for a single object:
undefined behaviour, before anything is written to the cell. -/
theorem C8_create_global_deletes_array_as_single_object :
    run shared_resize = Verdict.ub (UB.mismatched_delete 5) := by
  decide

/-- C9: `this` and `other` are two objects with the same members, which refer
to a cell. Whenever `create_local(w, h)` on `this` returns `true`, `this`
refers to a cell with count 1, width `w`, height `h` and a buffer of `w * h`
elements, at five addresses that were not in use before the call and that no
other live handle holds, while `other` keeps its members and they refer to
the cell they referred to, with the same width, height, buffer and buffer
contents. For `w, h ≥ 0` the call does return `true` when `w * h` fits a
`long` and the five requests to `new` are served. -/
theorem C9_create_local_leaves_the_shared_cell [Inhabited T] (s : State T) (this other : Nat)
    (hA : Matrix) (c w0 h0 : Int) (buf : Nat) (xs : List T) (w h : Int)
    (hne : this ≠ other)
    (hthis : s.objs this = some hA) (hother : s.objs other = some hA)
    (cell : Attached s hA c w0 h0 buf xs) (settled : Settled s)
    (hw : 0 ≤ w) (hh : 0 ≤ h) :
    (∀ s', create_local this w h s = Outcome.ok true s' →
      ∃ hB buf' ys, s'.objs this = some hB ∧
        Attached s' hB 1 w h buf' ys ∧ (ys.length : Int) = w * h ∧
        (s.brk < hB._refct ∧ s.brk < hB._width ∧ s.brk < hB._height ∧
          s.brk < hB._elems ∧ s.brk < buf') ∧
        (∀ i m, i ≠ this → s'.objs i = some m →
          m._refct ≠ hB._refct ∧ m._width ≠ hB._width ∧ m._height ≠ hB._height ∧
          m._elems ≠ hB._elems) ∧
        s'.objs other = some hA ∧ Attached s' hA c w0 h0 buf xs) ∧
    (w * h ≤ LONG_MAX → (∀ k, k < 5 → s.oracle (s.asked + k) = true) →
      ∃ s', create_local this w h s = Outcome.ok true s') := by
  have hrel : Releasable s hA := Or.inr ⟨c, cell.refct, cell.counted⟩
  constructor
  · intro s' hrun
    obtain ⟨p1, _, p3, p4, p5, p6, p7, p8, p9, p10, _⟩ :=
      create_local_ok s s' this hA w h hthis hrel hrun
    obtain ⟨b1, b2, b3, b4, b5⟩ := cell.below
    refine ⟨Matrix.mk (s.brk + 4) (s.brk + 1) (s.brk + 2) (s.brk + 3), s.brk + 5, _,
      by rw [p4]; simp,
      ⟨p5, p6, p7, p8, p9, ?_, ?_, le_refl _, ?_⟩,
      ?_, ?_, ?_, ?_, ?_⟩
    · exact ⟨by simp, by simp, by simp, by simp, by simp⟩
    · exact ⟨by simp, by simp, by simp⟩
    · rw [p3]
      exact ⟨by simp, by simp, by simp, by simp, by simp⟩
    · simp [Int.toNat_of_nonneg p1]
    · exact ⟨by simp, by simp, by simp, by simp, by simp⟩
    · intro i m hi hm
      rw [p4, Function.update_noteq hi] at hm
      obtain ⟨q1, q2, q3, q4⟩ := settled i m hm
      exact ⟨by simp; omega, by simp; omega, by simp; omega, by simp; omega⟩
    · rw [p4, Function.update_noteq (Ne.symm hne)]
      exact hother
    · refine ⟨?_, ?_, ?_, ?_, ?_, cell.nonnull, cell.apart, cell.counted, ?_⟩
      · rw [p10 _ b1]; exact cell.refct
      · rw [p10 _ b2]; exact cell.width
      · rw [p10 _ b3]; exact cell.height
      · rw [p10 _ b4]; exact cell.elems
      · rw [p10 _ b5]; exact cell.buffer
      · rw [p3]
        exact ⟨by omega, by omega, by omega, by omega, by omega⟩
  · intro hfit hgrant
    exact create_local_runs s this hA w h hthis hrel (mul_nonneg hw hh) hfit
      (by simpa using hgrant 0 (by decide)) (hgrant 1 (by decide)) (hgrant 2 (by decide))
      (hgrant 3 (by decide)) (hgrant 4 (by decide))

/-- Witness of C9: `Matrix A(2, 2); Matrix B(A); B.create_local(4, 4);`
returns `true`, `B` is then on a new `4 x 4` cell with count 1, and `A` is
still on its `2 x 2` cell. -/
theorem C9_witness :
    ∃ s' hB buf' ys, create_local 1 4 4 shared_cell = Outcome.ok true s' ∧
      s'.objs 1 = some hB ∧
      Attached s' hB 1 4 4 buf' ys ∧ (ys.length : Int) = 4 * 4 ∧
      (shared_cell.brk < hB._refct ∧ shared_cell.brk < hB._width ∧
        shared_cell.brk < hB._height ∧ shared_cell.brk < hB._elems ∧
        shared_cell.brk < buf') ∧
      (∀ i m, i ≠ 1 → s'.objs i = some m →
        m._refct ≠ hB._refct ∧ m._width ≠ hB._width ∧ m._height ≠ hB._height ∧
        m._elems ≠ hB._elems) ∧
      s'.objs 0 = some { _elems := 4, _refct := 1, _width := 2, _height := 3 } ∧
      Attached s' { _elems := 4, _refct := 1, _width := 2, _height := 3 } 2 2 2 5
        [0, 0, 0, 0] := by
  have h := C9_create_local_leaves_the_shared_cell shared_cell 1 0
    { _elems := 4, _refct := 1, _width := 2, _height := 3 } 2 2 2 5 [0, 0, 0, 0] 4 4
    (by decide) rfl rfl shared_cell_attached shared_cell_settled (by decide) (by decide)
  obtain ⟨s', hs'⟩ := h.2 (by decide) (fun _ _ => rfl)
  obtain ⟨hB, buf', ys, rest⟩ := h.1 s' hs'
  exact ⟨s', hB, buf', ys, hs', rest⟩

/-- C10 (fails on the code): `clone` hands the constructor the addresses held
in `_width` and `_height`. For `A(2, 2)` whose width lives at address 7 and
whose height lives at address 8, the clone has width 7, height 8 and a buffer
of 56 elements, not width 2, height 2 and 4 elements. -/
theorem C10_clone_takes_addresses_for_dimensions :
    run clone_square =
      Verdict.ok ({ _elems := 9, _refct := 6, _width := 7, _height := 8 }, 2, 2, 7, 8,
        Seen.arr 56) := by
  decide

/-- C11 (fails on the code): `Matrix A(3, 3); C = A.clone();` does not yield
a clone through which anything could be written. The width of `A` lives at
address 2 and its height at address 3; `clone` builds `C` with these addresses
for dimensions, a buffer of 6 elements, and copies the 9 elements of `A` into
it, outside of the buffer. -/
theorem C11_clone_does_not_return_a_clone :
    run clone_overrun = Verdict.ub (UB.out_of_bounds 9 6) := by
  decide

/-- C12 (fails on the code): on an empty handle, `create_local(2, 2)` whose
second request to `new` (the width) is not served returns `false` and leaves
`_refct`, `_height` and `_elems` pointing at the three objects it has
allocated, which are neither written nor released; and when it is the fifth
request (the buffer) that is not served, `create_local` does not return but
throws `bad_alloc`, and the handle keeps four members that are not null, the
`T*` object never written. -/
theorem C12_failed_create_local_keeps_partial_cell :
    run_with (fun k => k != 1) create_local_probe =
      Verdict.ok (false, some { _elems := 3, _refct := 1, _width := 0, _height := 2 },
        [Seen.uninit, Seen.uninit, Seen.uninit, Seen.nothing]) ∧
    run_with (fun k => k != 4) create_local_probe = Verdict.threw Exn.bad_alloc ∧
    (starved_local 4).objs 0 = some { _elems := 4, _refct := 1, _width := 2, _height := 3 } ∧
    (starved_local 4).heap 4 = some Obj.uninit := by
  refine ⟨?_, ?_, ?_, ?_⟩ <;> decide

/-- C14: on a handle whose `_elems` is null (an empty handle), and on a handle
whose `_elems` points at a `T*` that holds `nullptr` (a cell without a
buffer), `get(x, y)` throws `out_of_range` for all `x` and `y`, in the state
in which it was called. Nothing is assumed of `_width`, of `_height` or of
the rest of the free store: they may be null or dangling, so that reading the
width or the height would be undefined. -/
theorem C14_get_without_buffer_throws (s : State T) (this : Nat) (h : Matrix) (x y : Int)
    (hobj : s.objs this = some h)
    (hnone : h._elems = 0 ∨ s.heap h._elems = some (Obj.slot 0)) :
    get this x y s = Outcome.threw Exn.out_of_range s := by
  by_cases e : h._elems = 0
  · simp [get, bind_eq, getObj, hobj, e, throwExn]
  · rcases hnone with h0 | h0
    · exact absurd h0 e
    · simp [get, bind_eq, getObj, hobj, e, readSlot, h0, throwExn]

/-- Witness of C14: `get(5, 7)` on a default-constructed handle and on a
handle whose cell has no buffer. -/
theorem C14_witness :
    get 0 5 7 empty_handle = Outcome.threw Exn.out_of_range empty_handle ∧
    get 0 5 7 hollow_cell = Outcome.threw Exn.out_of_range hollow_cell :=
  ⟨C14_get_without_buffer_throws empty_handle 0 Matrix.null 5 7 rfl (Or.inl rfl),
   C14_get_without_buffer_throws hollow_cell 0 (Matrix.mk 1 0 0 0) 5 7 rfl (Or.inr rfl)⟩

/-- C15: `Matrix()` returns and leaves `this` with four null members, the free
store untouched. For `w, h ≥ 0` such that `w * h` is a `long`, when the five
requests to `new` are served, `Matrix(w, h)` returns and leaves `this` on a
cell with count 1, width `w`, height `h` and a buffer of `w * h` elements, at
five addresses that were not in use before, the rest of the free store
untouched. -/
theorem C15_constructors_build_empty_handle_and_new_cell [Inhabited T] (s : State T)
    (this : Nat) (w h : Int) (hw : 0 ≤ w) (hh : 0 ≤ h) (hfit : w * h ≤ LONG_MAX)
    (hgrant : ∀ k, k < 5 → s.oracle (s.asked + k) = true) :
    (∃ s', Matrix_default this s = Outcome.ok () s' ∧
      s'.objs this = some Matrix.null ∧ s'.heap = s.heap) ∧
    (∃ s' hB buf ys, Matrix_dims this w h s = Outcome.ok () s' ∧
      s'.objs this = some hB ∧
      Attached s' hB 1 w h buf ys ∧ (ys.length : Int) = w * h ∧
      (s.brk < hB._refct ∧ s.brk < hB._width ∧ s.brk < hB._height ∧
        s.brk < hB._elems ∧ s.brk < buf) ∧
      ∀ a, a ≤ s.brk → s'.heap a = s.heap a) := by
  constructor
  · exact ⟨_, rfl, by simp [Matrix.null], rfl⟩
  · have hres : ({ s with objs := Function.update s.objs this (some (Matrix.mk 0 0 0 0)) } :
        State T).objs this = some (Matrix.mk 0 0 0 0) := by simp
    have hrel : Releasable
        ({ s with objs := Function.update s.objs this (some (Matrix.mk 0 0 0 0)) } : State T)
        (Matrix.mk 0 0 0 0) := Or.inl rfl
    obtain ⟨s', hrun⟩ := create_local_runs
      ({ s with objs := Function.update s.objs this (some (Matrix.mk 0 0 0 0)) } : State T)
      this (Matrix.mk 0 0 0 0) w h hres hrel (mul_nonneg hw hh) hfit
      (by simpa using hgrant 0 (by decide)) (hgrant 1 (by decide)) (hgrant 2 (by decide))
      (hgrant 3 (by decide)) (hgrant 4 (by decide))
    obtain ⟨p1, _, p3, p4, p5, p6, p7, p8, p9, p10, _⟩ :=
      create_local_ok _ s' this (Matrix.mk 0 0 0 0) w h hres hrel hrun
    simp only [Function.update_idem] at p3 p4 p5 p6 p7 p8 p9 p10
    have hdims : Matrix_dims this w h s = Outcome.ok () s' := by
      have e : create_global this w h
          ({ s with objs := Function.update s.objs this (some (Matrix.mk 0 0 0 0)) } : State T) =
          Outcome.ok true s' := by
        rw [← hrun]
        simp [create_global, bind_eq, getObj]
      simp only [Matrix_dims, bind_eq, construct, setObj, e]
      rfl
    refine ⟨s', Matrix.mk (s.brk + 4) (s.brk + 1) (s.brk + 2) (s.brk + 3), s.brk + 5, _,
      hdims, by rw [p4]; simp, ⟨p5, p6, p7, p8, p9, ?_, ?_, le_refl _, ?_⟩, ?_, ?_, p10⟩
    · exact ⟨by simp, by simp, by simp, by simp, by simp⟩
    · exact ⟨by simp, by simp, by simp⟩
    · rw [p3]
      exact ⟨by simp, by simp, by simp, by simp, by simp⟩
    · simp [Int.toNat_of_nonneg p1]
    · exact ⟨by simp, by simp, by simp, by simp, by simp⟩

/-- Witness of C15: `Matrix<T> A;` and `Matrix<T> A(2, 3);` in the state with
no object. -/
theorem C15_witness :
    (∃ s', Matrix_default 0 (State.init Int) = Outcome.ok () s' ∧
      s'.objs 0 = some Matrix.null ∧ s'.heap = (State.init Int).heap) ∧
    (∃ s' hB buf ys, Matrix_dims 0 2 3 (State.init Int) = Outcome.ok () s' ∧
      s'.objs 0 = some hB ∧
      Attached s' hB 1 2 3 buf ys ∧ (ys.length : Int) = 2 * 3 ∧
      ((State.init Int).brk < hB._refct ∧ (State.init Int).brk < hB._width ∧
        (State.init Int).brk < hB._height ∧ (State.init Int).brk < hB._elems ∧
        (State.init Int).brk < buf) ∧
      ∀ a, a ≤ (State.init Int).brk → s'.heap a = (State.init Int).heap a) :=
  C15_constructors_build_empty_handle_and_new_cell (State.init Int) 0 2 3 (by decide)
    (by decide) (by decide) (fun _ _ => rfl)

/-- The cell a handle refers to is determined by the handle and the state. -/
theorem Attached.unique {s : State T} {m : Matrix} {c w ht c' w' ht' : Int} {buf buf' : Nat}
    {xs xs' : List T} (h : Attached s m c w ht buf xs) (h' : Attached s m c' w' ht' buf' xs') :
    c = c' ∧ w = w' ∧ ht = ht' ∧ buf = buf' ∧ xs = xs' := by
  have e1 := h.refct.symm.trans h'.refct
  have e2 := h.width.symm.trans h'.width
  have e3 := h.height.symm.trans h'.height
  have e4 := h.elems.symm.trans h'.elems
  simp only [Option.some.injEq, Obj.long.injEq, Obj.slot.injEq] at e1 e2 e3 e4
  have e5 := h.buffer.symm.trans (e4 ▸ h'.buffer)
  simp only [Option.some.injEq, Obj.arr.injEq] at e5
  exact ⟨e1, e2, e3, e4, e5⟩

theorem fits_frame {strict : Prop} {s s' : State T} {m : Matrix} (f : Fits strict s m)
    (hh : s'.heap = s.heap) (hb : s'.brk = s.brk) : Fits strict s' m := by
  rcases f with h | ⟨c, w, ht, buf, xs, h, hl, hs⟩
  · exact Or.inl h
  · exact Or.inr ⟨c, w, ht, buf, xs,
      h.frame (by rw [hh]) (by rw [hh]) (by rw [hh]) (by rw [hh]) (by rw [hh]) (by rw [hb]),
      hl, hs⟩

theorem sized_set_objs {strict : Prop} {s : State T} (sz : Sized strict s) (i : Nat)
    (o : Option Matrix) (ho : ∀ m, o = some m → Fits strict s m) :
    Sized strict { s with objs := Function.update s.objs i o } := by
  intro j m hj
  by_cases e : j = i
  · subst e
    simp only [Function.update_same] at hj
    exact fits_frame (ho m hj) rfl rfl
  · simp only [Function.update_noteq e] at hj
    exact fits_frame (sz j m hj) rfl rfl

theorem sized_at_start {strict : Prop} : Sized strict (State.init T) := by
  intro i m h
  cases h

theorem sized_count_up {strict : Prop} {s : State T} (inv : Inv s) (sz : Sized strict s)
    (j : Nat) (m : Matrix)
    (c w ht : Int) (buf : Nat) (xs : List T) (hj : s.objs j = some m)
    (cell : Attached s m c w ht buf xs) :
    Sized strict
      { s with heap := Function.update s.heap m._refct (some (Obj.long (c + 1))) } := by
  intro k n hk
  rcases sz k n hk with h | ⟨c', w', ht', buf', xs', h, hl, hs⟩
  · exact Or.inl h
  · right
    rcases inv.separate j k m n hj hk cell.ne_null h.ne_null with e | sep
    · subst e
      obtain ⟨rfl, rfl, rfl, rfl, rfl⟩ := cell.unique h
      exact ⟨c + 1, w, ht, buf, xs, cell.bump _, hl, hs⟩
    · obtain ⟨s1, s2, s3, _⟩ := sep
      obtain ⟨t1, t2⟩ := h.elems_ne_long cell.refct
      exact ⟨c', w', ht', buf', xs', h.frame
        (by simp [Function.update_apply, Ne.symm s1])
        (by simp [Function.update_apply, Ne.symm s2])
        (by simp [Function.update_apply, Ne.symm s3])
        (by simp [Function.update_apply, t1])
        (by simp [Function.update_apply, t2]) (le_refl _), hl, hs⟩

theorem sized_rewrite_buffer {strict : Prop} {s : State T} (sz : Sized strict s) (b : Nat)
    (zs ys : List T)
    (hb : s.heap b = some (Obj.arr zs)) (hlen : ys.length = zs.length) :
    Sized strict { s with heap := Function.update s.heap b (some (Obj.arr ys)) } := by
  intro k n hk
  rcases sz k n hk with h | ⟨c, w, ht, buf, xs, h, hl, hs⟩
  · exact Or.inl h
  · right
    have k1 : n._refct ≠ b := by intro e; have := h.refct; rw [e, hb] at this; cases this
    have k2 : n._width ≠ b := by intro e; have := h.width; rw [e, hb] at this; cases this
    have k3 : n._height ≠ b := by intro e; have := h.height; rw [e, hb] at this; cases this
    have k4 : n._elems ≠ b := by intro e; have := h.elems; rw [e, hb] at this; cases this
    by_cases e : buf = b
    · subst e
      have exs : xs = zs := by
        have := h.buffer.symm.trans hb
        simpa using this
      subst exs
      exact ⟨c, w, ht, buf, ys,
        ⟨by simp [Function.update_apply, k1, h.refct],
         by simp [Function.update_apply, k2, h.width],
         by simp [Function.update_apply, k3, h.height],
         by simp [Function.update_apply, k4, h.elems],
         by simp, h.nonnull, h.apart, h.counted, h.below⟩, by rw [hlen]; exact hl, hs⟩
    · exact ⟨c, w, ht, buf, xs, h.frame
        (by simp [Function.update_apply, k1]) (by simp [Function.update_apply, k2])
        (by simp [Function.update_apply, k3]) (by simp [Function.update_apply, k4])
        (by simp [Function.update_apply, e]) (le_refl _), hl, hs⟩

theorem sized_construct {strict : Prop} {s s' : State T} (sz : Sized strict s) (i : Nat)
    (hrun : construct i s = Outcome.ok () s') : Sized strict s' := by
  simp only [construct, setObj, Outcome.ok.injEq, true_and] at hrun
  subst hrun
  refine sized_set_objs sz i _ ?_
  intro m hm
  cases hm
  exact Or.inl rfl

theorem sized_destroy {strict : Prop} {s s' : State T} (inv : Inv s)
    (sz : Sized strict s) (i : Nat)
    (hrun : destroy i s = Outcome.ok () s') : Sized strict s' := by
  cases hobj : s.objs i with
  | none => simp [destroy, bind_eq, gc, getObj, hobj] at hrun
  | some m =>
    rw [destroy_keeps_heap s i m hobj (inv.handles i m hobj).releasable] at hrun
    simp only [Outcome.ok.injEq, true_and] at hrun
    subst hrun
    exact sized_set_objs sz i none (fun _ h => by cases h)

theorem sized_copy {strict : Prop} {s s' : State T} (inv : Inv s)
    (sz : Sized strict s) (i j : Nat)
    (hrun : Matrix_copy i j s = Outcome.ok () s') : Sized strict s' := by
  by_cases e : i = j
  · subst e
    simp [Matrix_copy, bind_eq, construct, setObj, getObj, set_elems, set_width, set_height,
      set_refct, increment, readLong] at hrun
  · cases hobj : s.objs j with
    | none =>
      simp [Matrix_copy, bind_eq, construct, setObj, getObj, Function.update_apply, Ne.symm e,
        hobj] at hrun
    | some m =>
      rcases inv.handles j m hobj with h | ⟨c, w, ht, buf, xs, cell⟩
      · subst h
        simp [Matrix_copy, bind_eq, construct, setObj, getObj, set_elems, set_width,
          set_height, set_refct, Function.update_apply, Ne.symm e, hobj, Matrix.null,
          increment, readLong] at hrun
      · by_cases hmax : c < LONG_MAX
        · rw [Matrix_copy_eq s i j m c e hobj cell.nonnull.1 cell.refct cell.counted hmax] at hrun
          simp only [Outcome.ok.injEq, true_and] at hrun
          subst hrun
          have sz1 := sized_count_up inv sz j m c w ht buf xs hobj cell
          exact sized_set_objs sz1 i _ (fun n hn => by cases hn; exact sz1 j m hobj)
        · have r : ¬ (LONG_MIN ≤ c + 1 ∧ c + 1 ≤ LONG_MAX) := fun h => hmax (by omega)
          simp [Matrix_copy, bind_eq, construct, setObj, getObj, set_elems, set_width,
            set_height, set_refct, Function.update_apply, Ne.symm e, hobj,
            increment, readLong, cell.nonnull.1, cell.refct, toLong, r, undefined] at hrun

theorem sized_assign {strict : Prop} {s s' : State T} (inv : Inv s)
    (sz : Sized strict s) (i j : Nat)
    (hrun : assign i j s = Outcome.ok () s') : Sized strict s' := by
  cases hdst : s.objs i with
  | none => simp [assign, bind_eq, gc, getObj, hdst] at hrun
  | some d =>
    obtain ⟨b, d', hgc⟩ := gc_frame s i d hdst (inv.handles i d hdst).releasable
    by_cases e : i = j
    · subst e
      simp [assign, bind_eq, hgc, construct, setObj, getObj, set_elems, set_width, set_height,
        set_refct, increment, readLong] at hrun
    · cases hobj : s.objs j with
      | none =>
        simp [assign, bind_eq, hgc, construct, setObj, getObj, Function.update_apply,
          Ne.symm e, hobj] at hrun
      | some m =>
        rcases inv.handles j m hobj with h | ⟨c, w, ht, buf, xs, cell⟩
        · subst h
          simp [assign, bind_eq, hgc, construct, setObj, getObj, set_elems, set_width,
            set_height, set_refct, Function.update_apply, Ne.symm e, hobj, Matrix.null,
            increment, readLong] at hrun
        · by_cases hmax : c < LONG_MAX
          · rw [assign_eq s i j m d c e hobj cell.nonnull.1 cell.refct cell.counted hmax hdst
              (inv.handles i d hdst).releasable] at hrun
            simp only [Outcome.ok.injEq, true_and] at hrun
            subst hrun
            have sz1 := sized_count_up inv sz j m c w ht buf xs hobj cell
            exact sized_set_objs sz1 i _ (fun n hn => by cases hn; exact sz1 j m hobj)
          · have r : ¬ (LONG_MIN ≤ c + 1 ∧ c + 1 ≤ LONG_MAX) := fun h => hmax (by omega)
            simp [assign, bind_eq, hgc, construct, setObj, getObj, set_elems, set_width,
              set_height, set_refct, Function.update_apply, Ne.symm e, hobj,
              increment, readLong, cell.nonnull.1, cell.refct, toLong, r, undefined] at hrun

theorem sized_store {strict : Prop} {s s' : State T} (sz : Sized strict s) (r : Ref) (v : T)
    (hrun : store r v s = Outcome.ok () s') : Sized strict s' := by
  unfold store at hrun
  split at hrun
  · rename_i xs hx
    split at hrun
    · simp only [Outcome.ok.injEq, true_and] at hrun
      subst hrun
      exact sized_rewrite_buffer sz r.buf xs _ hx (by simp)
    · cases hrun
  · cases hrun

theorem sized_put {strict : Prop} {s s' : State T} (sz : Sized strict s) (this : Nat) (x y : Int) (v : T)
    (hrun : put this x y v s = Outcome.ok () s') : Sized strict s' := by
  unfold put at hrun
  obtain ⟨r, s1, h1, h2⟩ := bind_ok_inv hrun
  have e := reads_get this x y s r s1 h1
  subst s1
  exact sized_store sz r v h2

theorem sized_memcpy {strict : Prop} {s s' : State T} (sz : Sized strict s) (dst src : Nat) (n : Int)
    (hrun : memcpy dst src n s = Outcome.ok () s') : Sized strict s' := by
  unfold memcpy at hrun
  split at hrun
  · cases hrun
  · split at hrun
    · rename_i d xs hd hx
      split at hrun
      · cases hrun
      · split at hrun
        · cases hrun
        · split at hrun
          · cases hrun
          · rename_i g1 g2 g3
            simp only [Outcome.ok.injEq, true_and] at hrun
            subst hrun
            refine sized_rewrite_buffer sz dst d _ hd ?_
            simp only [List.length_append, List.length_take, List.length_drop]
            omega
    · cases hrun
    · cases hrun

theorem sized_create_local [Inhabited T] {strict : Prop} {s s' : State T} (inv : Inv s)
    (sz : Sized strict s) (i : Nat) (width height : Int) (b : Bool)
    (hq : strict → 0 ≤ width ∧ 0 ≤ height)
    (hrun : create_local i width height s = Outcome.ok b s') : Sized strict s' := by
  cases hobj : s.objs i with
  | none => simp [create_local, bind_eq, gc, getObj, hobj] at hrun
  | some d =>
    have hrel := (inv.handles i d hobj).releasable
    have hb := create_local_true s s' i d width height b inv.served hobj hrel hrun
    subst hb
    obtain ⟨p1, _, p3, p4, p5, p6, p7, p8, p9, p10, _⟩ :=
      create_local_ok s s' i d width height hobj hrel hrun
    intro k n hk
    rw [p4] at hk
    by_cases e : k = i
    · subst e
      simp only [Function.update_same, Option.some.injEq] at hk
      subst hk
      right
      refine ⟨1, width, height, s.brk + 5, _, ⟨p5, p6, p7, p8, p9, ?_, ?_, le_refl _, ?_⟩,
        ?_, hq⟩
      · exact ⟨by simp, by simp, by simp, by simp, by simp⟩
      · exact ⟨by simp, by simp, by simp⟩
      · rw [p3]
        exact ⟨by simp, by simp, by simp, by simp, by simp⟩
      · simp [Int.toNat_of_nonneg p1]
    · simp only [Function.update_noteq e] at hk
      rcases sz k n hk with h | ⟨c, w, ht, buf, xs, h, hl, hs⟩
      · exact Or.inl h
      · obtain ⟨b1, b2, b3, b4, b5⟩ := h.below
        exact Or.inr ⟨c, w, ht, buf, xs,
          h.frame (p10 _ b1) (p10 _ b2) (p10 _ b3) (p10 _ b4) (p10 _ b5) (by omega), hl, hs⟩

theorem sized_create_global [Inhabited T] {strict : Prop} {s s' : State T} (inv : Inv s)
    (sz : Sized strict s) (i : Nat) (width height : Int) (b : Bool)
    (hq : strict → 0 ≤ width ∧ 0 ≤ height)
    (hrun : create_global i width height s = Outcome.ok b s') : Sized strict s' := by
  cases hobj : s.objs i with
  | none => simp [create_global, bind_eq, getObj, hobj] at hrun
  | some m =>
    rcases inv.handles i m hobj with hnull | ⟨c, w0, h0, buf, xs, cell⟩
    · have e : create_global i width height s = create_local i width height s := by
        simp [create_global, bind_eq, getObj, hobj, hnull, Matrix.null]
      rw [e] at hrun
      exact sized_create_local inv sz i width height b hq hrun
    · exact (create_global_attached_stuck s s' i m c w0 h0 buf xs width height b inv.served
        hobj cell hrun).elim

theorem sized_dims [Inhabited T] {strict : Prop} {s s' : State T} (inv : Inv s)
    (sz : Sized strict s) (i : Nat) (width height : Int)
    (hq : strict → 0 ≤ width ∧ 0 ≤ height)
    (hrun : Matrix_dims i width height s = Outcome.ok () s') : Sized strict s' := by
  unfold Matrix_dims at hrun
  split at hrun
  · cases hrun
  · rename_i r hr
    obtain ⟨_, s1, h1, h2⟩ := bind_ok_inv hrun
    obtain ⟨b, s2, h3, h4⟩ := bind_ok_inv h2
    cases h4
    exact sized_create_global (inv_construct inv i h1) (sized_construct sz i h1) i width
      height b hq h3

theorem sized_clone [Inhabited T] {strict : Prop} {s s' : State T} (inv : Inv s)
    (sz : Sized strict s) (i res : Nat)
    (hrun : clone i res s = Outcome.ok () s') : Sized strict s' := by
  unfold clone at hrun
  obtain ⟨h, s1, h1, r1⟩ := bind_ok_inv hrun
  have e1 := reads_getObj i s h s1 h1
  subst s1
  obtain ⟨_, s2, h2, r2⟩ := bind_ok_inv r1
  have sz2 := sized_dims inv sz res _ _
    (fun _ => ⟨Int.natCast_nonneg _, Int.natCast_nonneg _⟩) h2
  obtain ⟨mat, s3, h3, r3⟩ := bind_ok_inv r2
  have e3 := reads_getObj res s2 mat s3 h3
  subst s3
  obtain ⟨dst, s4, h4, r4⟩ := bind_ok_inv r3
  have e4 := reads_readSlot _ _ dst s4 h4
  subst s4
  obtain ⟨src, s5, h5, r5⟩ := bind_ok_inv r4
  have e5 := reads_readSlot _ _ src s5 h5
  subst s5
  obtain ⟨w, s6, h6, r6⟩ := bind_ok_inv r5
  have e6 := reads_readLong _ _ w s6 h6
  subst s6
  obtain ⟨ht, s7, h7, r7⟩ := bind_ok_inv r6
  have e7 := reads_readLong _ _ ht s7 h7
  subst s7
  obtain ⟨n, s8, h8, r8⟩ := bind_ok_inv r7
  have e8 := reads_toLong _ _ n s8 h8
  subst s8
  exact sized_memcpy sz2 dst src n r8

theorem sized_perform [Inhabited T] {strict : Prop} {s s' : State T} (inv : Inv s)
    (sz : Sized strict s) (op : Op T) (hq : strict → op.nonneg)
    (hrun : op.perform s = Outcome.ok () s') : Sized strict s' := by
  cases op with
  | construct name => exact sized_construct sz name hrun
  | construct_dims name width height => exact sized_dims inv sz name width height hq hrun
  | construct_copy name mat => exact sized_copy inv sz name mat hrun
  | assign this m => exact sized_assign inv sz this m hrun
  | create_local this width height =>
    obtain ⟨b, s1, h1, h2⟩ := bind_ok_inv hrun
    cases h2
    exact sized_create_local inv sz this width height b hq h1
  | create_global this width height =>
    obtain ⟨b, s1, h1, h2⟩ := bind_ok_inv hrun
    cases h2
    exact sized_create_global inv sz this width height b hq h1
  | put this x y v => exact sized_put sz this x y v hrun
  | clone this res => exact sized_clone inv sz this res hrun
  | destroy this => exact sized_destroy inv sz this hrun

theorem sized_perform_all [Inhabited T] {strict : Prop} (ops : List (Op T)) {s s' : State T}
    (inv : Inv s) (sz : Sized strict s) (hq : strict → ∀ op ∈ ops, op.nonneg)
    (hrun : perform_all ops s = Outcome.ok () s') : Sized strict s' := by
  induction ops generalizing s with
  | nil =>
    cases hrun
    exact sz
  | cons op rest ih =>
    obtain ⟨_, s1, h1, h2⟩ := bind_ok_inv hrun
    exact ih (inv_perform inv op h1)
      (sized_perform inv sz op (fun h => hq h op (List.mem_cons_self _ _)) h1)
      (fun h o ho => hq h o (List.mem_cons_of_mem _ ho)) h2

/-- A single statement that returns, as a run of client code. -/
theorem perform_all_one [Inhabited T] {s s' : State T} (op : Op T)
    (hrun : op.perform s = Outcome.ok () s') :
    perform_all [op] s = Outcome.ok () s' := by
  show (op.perform >>= fun _ => perform_all []) s = Outcome.ok () s'
  rw [bind_eq, hrun]
  rfl

theorem negative_cell_run :
    perform_all [(Op.construct_dims 0 (-1) (-1) : Op Int)] (State.init Int) =
      Outcome.ok () negative_cell := by
  refine perform_all_one _ ?_
  show Matrix_dims 0 (-1) (-1) (State.init Int) = Outcome.ok () negative_cell
  rfl

theorem square_cell_run :
    perform_all [(Op.construct_dims 0 2 2 : Op Int)] (State.init Int) =
      Outcome.ok () square_cell := by
  refine perform_all_one _ ?_
  show Matrix_dims 0 2 2 (State.init Int) = Outcome.ok () square_cell
  rfl

theorem negative_cell_attached :
    Attached negative_cell { _elems := 4, _refct := 1, _width := 2, _height := 3 } 1 (-1) (-1) 5
      [0] := by
  constructor <;> decide

theorem square_cell_attached :
    Attached square_cell { _elems := 4, _refct := 1, _width := 2, _height := 3 } 1 2 2 5
      [0, 0, 0, 0] := by
  constructor <;> decide

/-- Counterexample to C16 as stated: the state after `Matrix<T> A(-1, -1);` is
reachable, and in it the cell of `A` has width -1 and height -1, with a buffer
of 1 element. -/
theorem C16_counterexample :
    ¬ ∀ s : State Int, Reachable s → ∀ i m c w ht buf xs, s.objs i = some m →
      Attached s m c w ht buf xs → 0 ≤ w ∧ 0 ≤ ht ∧ (xs.length : Int) = w * ht := by
  intro h
  have := h negative_cell ⟨_, negative_cell_run⟩ 0
    { _elems := 4, _refct := 1, _width := 2, _height := 3 } 1 (-1) (-1) 5 [0] rfl
    negative_cell_attached
  exact absurd this.1 (by decide)

/-- C16 (amended): `s` is the state that the statements `ops` of client code
reach from the state with no object, every statement returning: a run
without undefined behaviour (no signed overflow in `width * height` among
others), without an exception and without a failure of `new`. Then the cell
of every live handle has a buffer of exactly `width * height` elements, so
that `width * height ≥ 0`; and when no statement of `ops` passes a negative
width or height, the width and the height of the cell are not negative. -/
theorem C16_buffer_length_is_width_times_height [Inhabited T] (ops : List (Op T))
    (s : State T) (hrun : perform_all ops (State.init T) = Outcome.ok () s)
    (i : Nat) (m : Matrix) (c w ht : Int) (buf : Nat) (xs : List T)
    (hobj : s.objs i = some m) (cell : Attached s m c w ht buf xs) :
    (xs.length : Int) = w * ht ∧ 0 ≤ w * ht ∧
    ((∀ op ∈ ops, op.nonneg) → 0 ≤ w ∧ 0 ≤ ht) := by
  have sz : Sized (∀ op ∈ ops, op.nonneg) s :=
    sized_perform_all ops Inv.at_start sized_at_start (fun h => h) hrun
  rcases sz i m hobj with h | ⟨c', w', ht', buf', xs', h, hl, hs⟩
  · exact absurd h cell.ne_null
  · obtain ⟨_, rfl, rfl, _, rfl⟩ := cell.unique h
    exact ⟨hl, by rw [← hl]; exact Int.natCast_nonneg _, hs⟩

/-- Witness of C16 (amended): `Matrix<T> A(-1, -1);` leaves a cell of one
element, and `(-1) * (-1) = 1`; `Matrix<T> A(2, 2);` passes no negative
argument and leaves a cell of width 2 and height 2. -/
theorem C16_witness :
    (perform_all [(Op.construct_dims 0 (-1) (-1) : Op Int)] (State.init Int) =
        Outcome.ok () negative_cell ∧
      Attached negative_cell { _elems := 4, _refct := 1, _width := 2, _height := 3 } 1 (-1)
        (-1) 5 [0] ∧
      (([0] : List Int).length : Int) = (-1) * (-1) ∧ (0 : Int) ≤ (-1) * (-1)) ∧
    (perform_all [(Op.construct_dims 0 2 2 : Op Int)] (State.init Int) =
        Outcome.ok () square_cell ∧
      Attached square_cell { _elems := 4, _refct := 1, _width := 2, _height := 3 } 1 2 2 5
        [0, 0, 0, 0] ∧
      (([0, 0, 0, 0] : List Int).length : Int) = 2 * 2 ∧ (0 : Int) ≤ 2 ∧ (0 : Int) ≤ 2) :=
  have neg := C16_buffer_length_is_width_times_height
    [(Op.construct_dims 0 (-1) (-1) : Op Int)] negative_cell negative_cell_run 0
    { _elems := 4, _refct := 1, _width := 2, _height := 3 } 1 (-1) (-1) 5 [0] rfl
    negative_cell_attached
  have pos := C16_buffer_length_is_width_times_height
    [(Op.construct_dims 0 2 2 : Op Int)] square_cell square_cell_run 0
    { _elems := 4, _refct := 1, _width := 2, _height := 3 } 1 2 2 5 [0, 0, 0, 0] rfl
    square_cell_attached
  ⟨⟨negative_cell_run, negative_cell_attached, neg.1, neg.2.1⟩,
    square_cell_run, square_cell_attached, pos.1, pos.2.2 (by simp [Op.nonneg])⟩

/-- C17: on a handle that refers to a cell, whenever `get(x, y)` does not throw
`out_of_range`, `get_unchecked(x, y)` ends as `get(x, y)` does: with a
reference to the same element of the same buffer, or with the same undefined
behaviour. -/
theorem C17_get_unchecked_agrees_with_get (s : State T) (this : Nat) (m : Matrix)
    (c w ht : Int) (buf : Nat) (xs : List T) (x y : Int)
    (hobj : s.objs this = some m) (cell : Attached s m c w ht buf xs)
    (hin : (get this x y s).verdict ≠ Verdict.threw Exn.out_of_range) :
    get_unchecked this x y s = get this x y s := by
  by_cases hrect : 0 ≤ x ∧ x < w ∧ 0 ≤ y ∧ y < ht
  · obtain ⟨hx0, hx, hy0, hy⟩ := hrect
    obtain ⟨h1, h2, h3, h4, h5, ⟨n1, n2, n3, n4, n5⟩, _, _, _⟩ := cell
    have c1 : ¬ w ≤ x := by omega
    have c2 : ¬ ht ≤ y := by omega
    have c3 : ¬ x < 0 := by omega
    have c4 : ¬ y < 0 := by omega
    simp [get, get_unchecked, bind_eq, getObj, hobj, n4, readSlot, h4, n5, readLong, n2, h2,
      n3, h3, c1, c2, c3, c4]
  · rw [get_outside s this m c w ht buf xs x y hobj cell hrect] at hin
    exact absurd rfl hin

/-- Witness of C17: `get(1, 1)` and `get_unchecked(1, 1)` on `Matrix A(2, 2)`. -/
theorem C17_witness : get_unchecked 0 1 1 one_cell = get 0 1 1 one_cell :=
  C17_get_unchecked_agrees_with_get one_cell 0
    { _elems := 4, _refct := 1, _width := 2, _height := 3 } 1 2 2 5 [0, 0, 0, 0] 1 1
    rfl one_cell_attached (by decide)

/-- On every live handle `operator=` with the handle itself as its argument
dereferences a null pointer: after `gc()` and `construct()` the member
`_refct`, read through the argument, is null, and `(*_refct)++` follows. -/
theorem assign_self_null_deref (s : State T) (this : Nat) (h : Matrix)
    (hobj : s.objs this = some h) (hrel : Releasable s h) :
    assign this this s = Outcome.ub UB.null_deref := by
  obtain ⟨b, m, hm⟩ := gc_frame s this h hobj hrel
  simp only [assign, bind_eq, hm]
  simp [bind_eq, construct, setObj, getObj, set_elems, set_width, set_height, set_refct,
    increment, readLong]

/-- When the source is an empty handle, the copy constructor dereferences a
null pointer in `(*_refct)++`. -/
theorem copy_empty_null_deref (s : State T) (this mat : Nat) (hne : this ≠ mat)
    (hsrc : s.objs mat = some Matrix.null) :
    Matrix_copy this mat s = Outcome.ub UB.null_deref := by
  simp [Matrix_copy, bind_eq, construct, setObj, getObj, set_elems, set_width, set_height,
    set_refct, Function.update_apply, Ne.symm hne, hsrc, Matrix.null, increment, readLong]

/-- When the source is an empty handle, `operator=` dereferences a null
pointer in `(*_refct)++`. -/
theorem assign_empty_null_deref (s : State T) (this mat : Nat) (h : Matrix)
    (hne : this ≠ mat) (hobj : s.objs this = some h) (hrel : Releasable s h)
    (hsrc : s.objs mat = some Matrix.null) :
    assign this mat s = Outcome.ub UB.null_deref := by
  obtain ⟨b, m, hm⟩ := gc_frame s this h hobj hrel
  simp only [assign, bind_eq, hm]
  simp [bind_eq, construct, setObj, getObj, set_elems, set_width, set_height, set_refct,
    Function.update_apply, Ne.symm hne, hsrc, Matrix.null, increment, readLong]

/-- C18 (fails on the code): after `Matrix A(2, 2);` the statement `A = A;`
dereferences a null pointer. -/
theorem C18_self_assignment_dereferences_null :
    run self_assign = Verdict.ub UB.null_deref := by
  decide

/-- C19 (fails on the code): with an empty handle `E`, the copy construction
`Matrix B(E)`, the assignment `B = E` to an empty `B` and the assignment
`B = E` to a `B` that refers to a cell all dereference a null pointer. -/
theorem C19_copy_of_empty_handle_dereferences_null :
    run copy_of_empty = Verdict.ub UB.null_deref ∧
    run assign_of_empty = Verdict.ub UB.null_deref ∧
    run assign_empty_to_cell = Verdict.ub UB.null_deref := by
  refine ⟨?_, ?_, ?_⟩ <;> decide

end claims

end nn
